import Mathlib

/-!
# Verification of geEngine's reflection-driven serialization subsystem

A shallow embedding, in Lean 4, of the serialization framework of the
geEngine repository:

* `geUtility/Source/geBinarySerializer.cpp` — the binary codec
  (`BinarySerializer::encode` / `decode` / `encodeEntry` / `decodeEntry`,
  metadata bit-packing helpers, persistent-id assignment);
* `geUtility/Source/geSerializedObject.cpp` — the intermediate
  `SerializedObject` tree and the `IntermediateSerializer`;
* `geUtility/Source/geBinaryDiff.cpp` — `IDiff`/`BinaryDiff` diff
  generation and patching;
* `geUtility/Source/geBinaryCloner.cpp` — shallow/deep cloning;
* `geUtility/Source/geIReflectable.cpp` — the global RTTI type registry.

Machine integers (`uint32`, `uint16`, `uint8`) are modelled as `Nat`; all
values produced by the bit-packing helpers stay below `2 ^ 32` because
their inputs are range-limited exactly as the C++ unsigned types limit
them, so no wrap-around arithmetic arises in the modelled functions.
C++ exceptions (`GE_EXCEPT`) are modelled with `Except String` /
`Option`; a thrown exception is an `Except.error`.
-/

namespace GeEngine

/-! ## Auxiliary facts about disjoint bitwise-or

The C++ metadata encoders combine non-overlapping bit ranges with `|`.
These helpers let us convert such disjoint `|||`s into `+`.
-/

theorem or_mod_two_eq_one (a b : Nat) :
    (a ||| b) % 2 = 1 ↔ (a % 2 = 1 ∨ b % 2 = 1) := by
  simp only [Nat.mod_two_eq_one_iff_testBit_zero, Nat.testBit_or,
    Bool.or_eq_true]

theorem or_div_two (a b : Nat) : (a ||| b) / 2 = a / 2 ||| b / 2 := by
  apply Nat.eq_of_testBit_eq
  intro i
  simp [Nat.testBit_div_two, Nat.testBit_or]

theorem lor_eq_add_of_and_eq_zero (a : Nat) :
    ∀ b, a &&& b = 0 → a ||| b = a + b := by
  induction a using Nat.strongRecOn with
  | _ a ih =>
    intro b h
    match a with
    | 0 => simp
    | (a' + 1) =>
      have hdiv : (a' + 1) / 2 &&& b / 2 = 0 := by
        rw [← Nat.and_div_two, h]
      have hrec : (a' + 1) / 2 ||| b / 2 = (a' + 1) / 2 + b / 2 :=
        ih ((a' + 1) / 2) (by omega) _ hdiv
      have hmod : ¬((a' + 1) % 2 = 1 ∧ b % 2 = 1) := by
        intro hc
        have := Nat.and_mod_two_eq_one.mpr hc
        rw [h] at this
        simp at this
      have hormod : ((a' + 1) ||| b) % 2 = 1 ↔
          ((a' + 1) % 2 = 1 ∨ b % 2 = 1) := or_mod_two_eq_one _ _
      have hordiv : ((a' + 1) ||| b) / 2 = (a' + 1) / 2 ||| b / 2 :=
        or_div_two _ _

      have h1 : ((a' + 1) ||| b) = 2 * (((a' + 1) ||| b) / 2) +
          ((a' + 1) ||| b) % 2 := by omega
      have h2 : ((a' + 1) ||| b) % 2 < 2 := Nat.mod_lt _ (by omega)
      rw [hrec] at hordiv
      omega

theorem shiftLeft_and_small (x f n : Nat) (hf : f < 2 ^ n) :
    (x <<< n) &&& f = 0 := by
  apply Nat.eq_of_testBit_eq
  intro i
  simp only [Nat.testBit_and, Nat.testBit_shiftLeft, Nat.zero_testBit,
    Bool.and_eq_false_iff]
  by_cases hi : n ≤ i
  · right
    exact Nat.testBit_lt_two_pow
      (lt_of_lt_of_le hf (Nat.pow_le_pow_right (by omega) hi))
  · left
    simp [hi]

theorem shiftLeft_or_small (x f n : Nat) (hf : f < 2 ^ n) :
    (x <<< n) ||| f = x * 2 ^ n + f := by
  rw [lor_eq_add_of_and_eq_zero _ _ (shiftLeft_and_small x f n hf),
    Nat.shiftLeft_eq]

/-! ## Field kinds and field descriptors

`SERIALIZABLE_FIELD_TYPE` is declared in `geRTTIField.h` (a header the
repository snapshot does not include, but whose enumerators are used
throughout the sources).  The kinds themselves are taken from the
sources: `kPlain`, `kReflectable`, `kReflectablePtr`, `kDataBlock`.
-/

inductive FieldKind where
  | kPlain
  | kReflectable
  | kReflectablePtr
  | kDataBlock
deriving DecidableEq, Repr

/-! ## Metadata bit-packing (geBinarySerializer.cpp 1008–1112)

Direct transcriptions of `BinarySerializer::encodeFieldMetaData`,
`decodeFieldMetaData`, `encodeObjectMetaData`, `decodeObjectMetaData`
and `isObjectMetaData`.
-/

/-- `BinarySerializer::isObjectMetaData`: bit 0 distinguishes object
meta-data words (1) from field meta-data words (0). -/
def isObjectMetaData (encodedData : Nat) : Bool :=
  (encodedData &&& 0x01) != 0

/-- `BinarySerializer::encodeFieldMetaData`: packs a field's id, static
size, kind and flags into one 32-bit word.  Layout (from the source
comment): `IIII IIII IIII IIII SSSS SSSS xTYP DCAO`. -/
def encodeFieldMetaData (id size : Nat) (array : Bool) (type : FieldKind)
    (hasDynamicSize terminator : Bool) : Nat :=
  (id <<< 16) ||| (size <<< 8) |||
  (if array then 0x02 else 0) |||
  (if type = FieldKind.kDataBlock then 0x04 else 0) |||
  (if type = FieldKind.kReflectable then 0x08 else 0) |||
  (if type = FieldKind.kReflectablePtr then 0x10 else 0) |||
  (if hasDynamicSize then 0x20 else 0) |||
  (if terminator then 0x40 else 0)

/-- Result tuple of `BinarySerializer::decodeFieldMetaData` (the C++
returns through out-parameters). -/
structure FieldMeta where
  id : Nat
  size : Nat
  array : Bool
  type : FieldKind
  hasDynamicSize : Bool
  terminator : Bool
deriving DecidableEq, Repr

/-- `BinarySerializer::decodeFieldMetaData`: unpacks a field meta-data
word; throws if the word is an object meta-data word. -/
def decodeFieldMetaData (encodedData : Nat) : Except String FieldMeta :=
  if isObjectMetaData encodedData then
    .error "Meta data represents an object description"
  else
    .ok
      { terminator := (encodedData &&& 0x40) != 0
        hasDynamicSize := (encodedData &&& 0x20) != 0
        type :=
          if (encodedData &&& 0x10) != 0 then FieldKind.kReflectablePtr
          else if (encodedData &&& 0x08) != 0 then FieldKind.kReflectable
          else if (encodedData &&& 0x04) != 0 then FieldKind.kDataBlock
          else FieldKind.kPlain
        array := (encodedData &&& 0x02) != 0
        size := (encodedData >>> 8) &&& 0xFF
        id := (encodedData >>> 16) &&& 0xFFFF }

/-- `BinarySerializer::encodeObjectMetaData`: two 32-bit words; word 0
packs the persistent id (30 bits), the base-class flag (bit 1) and the
object marker (bit 0 = 1).  Throws when the id exceeds 30 bits. -/
def encodeObjectMetaData (objId objTypeId : Nat) (isBaseClass : Bool) :
    Except String (Nat × Nat) :=
  if objId > 1073741823 then
    .error "Object ID is larger than we can store (max 30 bits)"
  else
    .ok ((objId <<< 2) ||| (if isBaseClass then 0x02 else 0) ||| 0x01,
      objTypeId)

/-- `BinarySerializer::decodeObjectMetaData`: unpacks an object
meta-data word pair; throws if the word is a field meta-data word. -/
def decodeObjectMetaData (encodedData : Nat × Nat) :
    Except String (Nat × Nat × Bool) :=
  if !isObjectMetaData encodedData.1 then
    .error "Meta data represents a field description"
  else
    .ok ((encodedData.1 >>> 2) &&& 0x3FFFFFFF,
      encodedData.2,
      (encodedData.1 &&& 0x02) != 0)

/-- Combining the id range, size range and flag byte of a field
meta-data word is plain addition, the ranges being disjoint. -/
theorem combine_id_size_flags (id size c : Nat) (hs : size < 256)
    (hc : c < 256) :
    (id <<< 16) ||| ((size <<< 8) ||| c) =
      id * 65536 + size * 256 + c := by
  have h1 : (size <<< 8) ||| c = size * 2 ^ 8 + c :=
    shiftLeft_or_small size c 8 (by omega)
  rw [h1, shiftLeft_or_small id _ 16 (by norm_num; omega)]
  norm_num
  ring

/-- Closed arithmetic form of `encodeFieldMetaData`: the disjoint
bit-ranges combine additively. -/
theorem encodeFieldMetaData_eq (id size : Nat) (array : Bool)
    (type : FieldKind) (hasDynamicSize terminator : Bool)
    (hsize : size < 256) :
    encodeFieldMetaData id size array type hasDynamicSize terminator =
      id * 65536 + size * 256 +
      ((if array then 0x02 else 0) +
       (if type = FieldKind.kDataBlock then 0x04 else 0) +
       (if type = FieldKind.kReflectable then 0x08 else 0) +
       (if type = FieldKind.kReflectablePtr then 0x10 else 0) +
       (if hasDynamicSize then 0x20 else 0) +
       (if terminator then 0x40 else 0)) := by
  unfold encodeFieldMetaData
  rcases array <;> rcases hasDynamicSize <;> rcases terminator <;>
    rcases type <;>
    simp only [reduceIte, reduceCtorEq, Nat.or_zero, Nat.zero_or,
      Nat.or_assoc, Nat.add_zero, Nat.zero_add] <;>
    first
      | (rw [combine_id_size_flags id size _ hsize (by decide)]
         all_goals simp)
      | (rw [show ((size <<< 8) : Nat) = (size <<< 8) ||| 0 by
            rw [Nat.or_zero],
          combine_id_size_flags id size 0 hsize (by decide)]
         all_goals simp)

/-- Adding a multiple of 256 does not disturb masked extraction of the
low byte. -/
theorem add256_and_small (a b c : Nat) (ha : a % 256 = 0) (hc : c < 256) :
    (a + b) &&& c = b &&& c := by
  apply Nat.eq_of_testBit_eq
  intro i
  simp only [Nat.testBit_and]
  by_cases hi : i < 8
  · have hb : (a + b).testBit i = b.testBit i := by
      rw [Nat.testBit_to_div_mod, Nat.testBit_to_div_mod]
      simp only [decide_eq_decide]
      interval_cases i <;> norm_num <;> omega
    rw [hb]
  · have h1 : c.testBit i = false :=
      Nat.testBit_lt_two_pow
        (lt_of_lt_of_le hc (by
          calc (256 : Nat) = 2 ^ 8 := by norm_num
          _ ≤ 2 ^ i := Nat.pow_le_pow_right (by omega) (by omega)))
    simp [h1]

/-- Flag-byte extraction on a packed field meta-data word sees only the
flag byte. -/
theorem high_and_small (id size K c : Nat) (hc : c < 256) :
    (id * 65536 + size * 256 + K) &&& c = K &&& c := by
  have h : (id * 65536 + size * 256) % 256 = 0 := by omega
  exact add256_and_small (id * 65536 + size * 256) K c h hc

/-- Size extraction (`(encodedData >> 8) & 0xFF`) on a packed field
meta-data word recovers the size byte. -/
theorem high_extract_size (id size K : Nat) (hsize : size < 256)
    (hK : K < 256) :
    ((id * 65536 + size * 256 + K) >>> 8) &&& 0xFF = size := by
  rw [Nat.shiftRight_eq_div_pow,
    show (0xFF : Nat) = 2 ^ 8 - 1 by norm_num,
    Nat.and_pow_two_sub_one_eq_mod]
  norm_num
  omega

/-- Id extraction (`(encodedData >> 16) & 0xFFFF`) on a packed field
meta-data word recovers the field id. -/
theorem high_extract_id (id size K : Nat) (hid : id < 65536)
    (hsize : size < 256) (hK : K < 256) :
    ((id * 65536 + size * 256 + K) >>> 16) &&& 0xFFFF = id := by
  rw [Nat.shiftRight_eq_div_pow,
    show (0xFFFF : Nat) = 2 ^ 16 - 1 by norm_num,
    Nat.and_pow_two_sub_one_eq_mod]
  norm_num
  omega

/-- Decoding a packed word whose flag byte is `K` behaves exactly like
decoding `K` itself, with the id and size fields substituted. -/
theorem decodeFieldMetaData_closed (id size K : Nat) (hid : id < 65536)
    (hsize : size < 256) (hK : K < 256) :
    decodeFieldMetaData (id * 65536 + size * 256 + K) =
      Except.map (fun m => { m with id := id, size := size })
        (decodeFieldMetaData K) := by
  unfold decodeFieldMetaData isObjectMetaData
  rw [high_and_small id size K 0x01 (by norm_num),
    high_and_small id size K 0x40 (by norm_num),
    high_and_small id size K 0x20 (by norm_num),
    high_and_small id size K 0x10 (by norm_num),
    high_and_small id size K 0x08 (by norm_num),
    high_and_small id size K 0x04 (by norm_num),
    high_and_small id size K 0x02 (by norm_num),
    high_extract_size id size K hsize hK,
    high_extract_id id size K hid hsize hK]
  have e1 : (K >>> 8) &&& 0xFF = 0 := by
    rw [Nat.shiftRight_eq_div_pow,
      show (0xFF : Nat) = 2 ^ 8 - 1 by norm_num,
      Nat.and_pow_two_sub_one_eq_mod]
    norm_num
    omega
  have e2 : (K >>> 16) &&& 0xFFFF = 0 := by
    rw [Nat.shiftRight_eq_div_pow,
      show (0xFFFF : Nat) = 2 ^ 16 - 1 by norm_num,
      Nat.and_pow_two_sub_one_eq_mod]
    norm_num
    omega
  rw [e1, e2]
  by_cases h : K % 2 = 1 <;>
    simp [h, Except.map, Nat.and_one_is_mod]

/-- `decodeFieldMetaData` inverts `encodeFieldMetaData` exactly, for
in-range ids and sizes. -/
theorem decodeFieldMetaData_encodeFieldMetaData (id size : Nat)
    (array : Bool) (type : FieldKind) (hasDynamicSize terminator : Bool)
    (hid : id < 2 ^ 16) (hsize : size < 2 ^ 8) :
    decodeFieldMetaData
        (encodeFieldMetaData id size array type hasDynamicSize terminator) =
      .ok ⟨id, size, array, type, hasDynamicSize, terminator⟩ := by
  rw [encodeFieldMetaData_eq id size array type hasDynamicSize terminator
    (by omega)]
  rcases array <;> rcases hasDynamicSize <;> rcases terminator <;>
    rcases type <;>
    simp only [reduceIte, reduceCtorEq] <;>
    rw [decodeFieldMetaData_closed id size _ (by omega) (by omega)
      (by norm_num)] <;>
    simp [decodeFieldMetaData, isObjectMetaData, Except.map] <;>
    decide

/-- C8: for every field id < 2^16, static size < 2^8, field kind in
{Plain, Reflectable, ReflectablePtr, DataBlock} and boolean
is-array / has-dynamic-size / is-terminator flags,
`encodeFieldMetaData` packs them into one 32-bit word with bit 0 = 0,
bit 1 = is-array, bit 2 = is-DataBlock, bit 3 = is-Reflectable,
bit 4 = is-ReflectablePtr, bit 5 = has-dynamic-size,
bit 6 = is-terminator, bits [15:8] = size, bits [31:16] = id, and
`decodeFieldMetaData` applied to that word returns exactly the original
tuple. -/
theorem fieldMetaData_layout_roundtrip (id size : Nat) (array : Bool)
    (type : FieldKind) (hasDynamicSize terminator : Bool) (e : Nat)
    (hid : id < 2 ^ 16) (hsize : size < 2 ^ 8)
    (he : e = encodeFieldMetaData id size array type hasDynamicSize
      terminator) :
    e < 2 ^ 32 ∧
    e % 2 = 0 ∧
    e / 2 % 2 = (if array then 1 else 0) ∧
    e / 4 % 2 = (if type = FieldKind.kDataBlock then 1 else 0) ∧
    e / 8 % 2 = (if type = FieldKind.kReflectable then 1 else 0) ∧
    e / 16 % 2 = (if type = FieldKind.kReflectablePtr then 1 else 0) ∧
    e / 32 % 2 = (if hasDynamicSize then 1 else 0) ∧
    e / 64 % 2 = (if terminator then 1 else 0) ∧
    e / 256 % 256 = size ∧
    e / 65536 % 65536 = id ∧
    decodeFieldMetaData e =
      .ok ⟨id, size, array, type, hasDynamicSize, terminator⟩ := by
  subst he
  refine ⟨?_, ?_, ?_, ?_, ?_, ?_, ?_, ?_, ?_, ?_,
    decodeFieldMetaData_encodeFieldMetaData id size array type
      hasDynamicSize terminator hid hsize⟩ <;>
  · rw [encodeFieldMetaData_eq id size array type hasDynamicSize
      terminator (by omega)]
    rcases array <;> rcases hasDynamicSize <;> rcases terminator <;>
      rcases type <;>
      simp only [reduceIte, reduceCtorEq] <;> omega

theorem fieldMetaData_layout_roundtrip_witness :
    decodeFieldMetaData
        (encodeFieldMetaData 513 7 true FieldKind.kReflectablePtr
          false true) =
      .ok ⟨513, 7, true, FieldKind.kReflectablePtr, false, true⟩ :=
  (fieldMetaData_layout_roundtrip 513 7 true FieldKind.kReflectablePtr
    false true _ (by decide) (by decide) rfl).2.2.2.2.2.2.2.2.2.2

/-! ## The global RTTI type registry (geIReflectable.cpp 31–71)

`IReflectable::getAllRTTITypes()` is an `UnorderedMap<uint32,
RTTITypeBase*>`; we model it as an association list with
insert-or-assign semantics for `map[key] = value`.  An `RTTITypeEntry`
stands for an `RTTITypeBase*` as far as registration is concerned: its
`getRTTIId()` and `getRTTIName()`. -/

structure RTTITypeEntry where
  rttiId : Nat
  rttiName : String
deriving DecidableEq, Repr

/-- `TYPEID_UTILITY::kID_Abstract`, the sentinel type id that
`_isTypeIdDuplicate` always reports as non-duplicate (declared in a
header outside this snapshot; no proof below depends on the concrete
value, only on comparisons against this constant). -/
def kID_Abstract : Nat := 50

abbrev RTTIRegistry := List (Nat × RTTITypeEntry)

/-- `map[key] = value` on an `UnorderedMap`: overwrite if present,
insert otherwise. -/
def mapAssign (reg : RTTIRegistry) (k : Nat) (v : RTTITypeEntry) :
    RTTIRegistry :=
  match reg with
  | [] => [(k, v)]
  | (k', v') :: rest =>
    if k' = k then (k, v) :: rest else (k', v') :: mapAssign rest k v

/-- `IReflectable::_getRTTIfromTypeId`: look the id up in the registry,
`nullptr` (`none`) when absent. -/
def getRTTIfromTypeId (reg : RTTIRegistry) (rttiTypeId : Nat) :
    Option RTTITypeEntry :=
  (reg.find? (fun p => p.1 == rttiTypeId)).map Prod.snd

/-- `IReflectable::_isTypeIdDuplicate`: `kID_Abstract` is never a
duplicate; any other id is a duplicate iff already registered. -/
def isTypeIdDuplicate (reg : RTTIRegistry) (typeId : Nat) : Bool :=
  if typeId = kID_Abstract then false
  else (getRTTIfromTypeId reg typeId).isSome

/-- `IReflectable::_registerRTTIType`: throws on duplicate id, else
assigns the registry slot. -/
def registerRTTIType (reg : RTTIRegistry) (rttiType : RTTITypeEntry) :
    Except String RTTIRegistry :=
  if isTypeIdDuplicate reg rttiType.rttiId then
    .error ("RTTI type \"" ++ rttiType.rttiName ++
      "\" has a duplicate ID")
  else
    .ok (mapAssign reg rttiType.rttiId rttiType)

theorem getRTTIfromTypeId_mapAssign_self (reg : RTTIRegistry) (k : Nat)
    (v : RTTITypeEntry) :
    getRTTIfromTypeId (mapAssign reg k v) k = some v := by
  induction reg with
  | nil => simp [mapAssign, getRTTIfromTypeId]
  | cons hd tl ih =>
    rcases hd with ⟨k', v'⟩
    by_cases h : k' = k
    · subst h
      simp [mapAssign, getRTTIfromTypeId]
    · unfold getRTTIfromTypeId at ih ⊢
      simp only [mapAssign, if_neg h]
      rw [List.find?_cons_of_neg _ (by simp [h])]
      exact ih

/-- C9 counterexample: a second type whose id equals the id of an
already-registered type does NOT always raise an error —
`_isTypeIdDuplicate` exempts `kID_Abstract`, so registering over an
existing `kID_Abstract` entry silently succeeds and overwrites the
slot. -/
theorem registerRTTIType_duplicate_abstract_succeeds :
    (getRTTIfromTypeId [(kID_Abstract, ⟨kID_Abstract, "AbstractA"⟩)]
        kID_Abstract).isSome = true ∧
    registerRTTIType [(kID_Abstract, ⟨kID_Abstract, "AbstractA"⟩)]
        ⟨kID_Abstract, "AbstractB"⟩ =
      .ok [(kID_Abstract, ⟨kID_Abstract, "AbstractB"⟩)] := by
  constructor
  · rfl
  · rfl

/-- C9 (amended): for any type id other than the reserved
`kID_Abstract` sentinel, registering over an already-registered id
raises the duplicate-id exception (leaving the registry unchanged — the
error is raised before the assignment), and registering a fresh id
succeeds and makes the type retrievable from the registry by that
id. -/
theorem registerRTTIType_spec (reg : RTTIRegistry) (t : RTTITypeEntry)
    (hnotAbstract : t.rttiId ≠ kID_Abstract) :
    ((getRTTIfromTypeId reg t.rttiId).isSome →
      registerRTTIType reg t =
        .error ("RTTI type \"" ++ t.rttiName ++
          "\" has a duplicate ID")) ∧
    ((getRTTIfromTypeId reg t.rttiId).isNone →
      registerRTTIType reg t = .ok (mapAssign reg t.rttiId t) ∧
      getRTTIfromTypeId (mapAssign reg t.rttiId t) t.rttiId = some t) := by
  constructor
  · intro h
    unfold registerRTTIType isTypeIdDuplicate
    simp [hnotAbstract, h]
  · intro h
    unfold registerRTTIType isTypeIdDuplicate
    refine ⟨by simp [hnotAbstract, Option.isNone_iff_eq_none.mp h], ?_⟩
    exact getRTTIfromTypeId_mapAssign_self reg t.rttiId t

theorem registerRTTIType_spec_witness :
    registerRTTIType [(1, ⟨1, "A"⟩)] ⟨2, "B"⟩ =
      .ok (mapAssign [(1, ⟨1, "A"⟩)] 2 ⟨2, "B"⟩) ∧
    getRTTIfromTypeId (mapAssign [(1, ⟨1, "A"⟩)] 2 ⟨2, "B"⟩) 2 =
      some ⟨2, "B"⟩ :=
  (registerRTTIType_spec [(1, ⟨1, "A"⟩)] ⟨2, "B"⟩ (by decide)).2
    (by decide)

/-! ## Reflection metadata and live object graphs

`RTTIField` models one field descriptor (`geRTTIField.h` declares the
base struct; the concrete variants are `geRTTIPlainField.h`,
`geRTTIReflectableField.h`, `geRTTIReflectablePtrField.h`,
`geRTTIManagedDataBlockField.h`).  `typeSize`/`plainHasDynamicSize`
describe a Plain field's payload; for Reflectable, ReflectablePtr and
DataBlock fields `getTypeSize()` is 0 and `hasDynamicSize()` is true in
the C++ headers, which the derived accessors below reproduce.
`weakRef` models the `RTTI_FIELD_FLAG::kWeakRef` bit of `getFlags()`.
`elemTypeId` is the type id of the field's element type (used by
`newObject()` for Reflectable fields). -/

structure RTTIField where
  uniqueId : Nat
  fieldType : FieldKind
  isVectorType : Bool
  typeSize : Nat
  plainHasDynamicSize : Bool
  weakRef : Bool
  elemTypeId : Nat
deriving DecidableEq, Repr

/-- `RTTIField::getTypeSize()`: complex types do not store size the
conventional way (their override returns 0). -/
def RTTIField.getTypeSize (f : RTTIField) : Nat :=
  match f.fieldType with
  | FieldKind.kPlain => f.typeSize
  | _ => 0

/-- `RTTIField::hasDynamicSize()`: true for all complex kinds, and for
Plain fields with a dynamically-sized payload. -/
def RTTIField.hasDynSize (f : RTTIField) : Bool :=
  match f.fieldType with
  | FieldKind.kPlain => f.plainHasDynamicSize
  | _ => true

/-- One level of an RTTI inheritance chain (`RTTITypeBase`): its type
id, its own fields and a link to its base class. -/
structure RTTIType where
  typeId : Nat
  fields : List RTTIField
  baseTypeId : Option Nat
deriving DecidableEq, Repr

/-- The collection of all RTTI type descriptors (the codec reaches them
through `IReflectable::_getRTTIfromTypeId` and `getBaseClass()`). -/
abbrev TypeRegistry := List RTTIType

def findRTTIType (reg : TypeRegistry) (typeId : Nat) : Option RTTIType :=
  reg.find? (fun rt => rt.typeId == typeId)

/-- The inheritance chain from a type to the root, most-derived first,
produced by following `getBaseClass()` (fuelled: the C++ relies on the
static chain being finite). -/
def chainOf (reg : TypeRegistry) : Nat → Option Nat → List RTTIType
  | 0, _ => []
  | _, none => []
  | fuel + 1, some tid =>
    match findRTTIType reg tid with
    | none => []
    | some rt => rt :: chainOf reg fuel rt.baseTypeId

/-- `RTTITypeBase::findField(uniqueFieldId)`: search this type's own
fields, `nullptr` when absent. -/
def RTTIType.findField (rt : RTTIType) (uniqueFieldId : Nat) :
    Option RTTIField :=
  rt.fields.find? (fun f => f.uniqueId == uniqueFieldId)

mutual
/-- The value stored in one reflectable field of a live object.
Plain payloads and data blocks are byte lists; embedded Reflectable
values are held by value; ReflectablePtr values hold the address of the
referenced heap object (`none` = null pointer). -/
inductive FieldValue where
  | plainV (bytes : List Nat)
  | plainArr (elems : List (List Nat))
  | reflV (obj : ObjectData)
  | reflArr (objs : List ObjectData)
  | ptrV (addr : Option Nat)
  | ptrArr (addrs : List (Option Nat))
  | blockV (bytes : List Nat)

/-- A live reflectable object: its most-derived type id and one list of
field values per level of its inheritance chain (most-derived first,
positionally matching `RTTIType.fields` of that level). -/
inductive ObjectData where
  | mk (typeId : Nat) (levels : List (List FieldValue))
end

def ObjectData.typeId : ObjectData → Nat
  | .mk t _ => t

def ObjectData.levels : ObjectData → List (List FieldValue)
  | .mk _ ls => ls

/-- Field read through the host's accessor: by chain level and field
position. -/
def ObjectData.getFV (o : ObjectData) (level idx : Nat) :
    Option FieldValue :=
  (o.levels.get? level).bind (fun fs => fs.get? idx)

/-- Field write through the host's accessor (UB-free only for in-range
positions, which all well-formed traversals guarantee). -/
def ObjectData.setFV (o : ObjectData) (level idx : Nat)
    (v : FieldValue) : ObjectData :=
  .mk o.typeId
    (match o.levels.get? level with
     | none => o.levels
     | some fs => o.levels.set level (fs.set idx v))

/-- The heap of live reflectable instances; `SPtr<IReflectable>`
identity is the address (`Nat`). -/
structure Heap where
  objs : List (Nat × ObjectData)
  next : Nat

def Heap.get (h : Heap) (addr : Nat) : Option ObjectData :=
  (h.objs.find? (fun p => p.1 == addr)).map Prod.snd

def Heap.setObj (h : Heap) (addr : Nat) (o : ObjectData) : Heap :=
  { h with objs := h.objs.map (fun p => if p.1 == addr then (addr, o) else p) }

def Heap.alloc (h : Heap) (o : ObjectData) : Nat × Heap :=
  (h.next, { objs := h.objs ++ [(h.next, o)], next := h.next + 1 })

/-- Default-constructed instance of a type
(`RTTITypeBase::newRTTIObject` / `createInstanceFromTypeId`):
zero-filled plain payloads, empty arrays, null references,
default-constructed embedded values. -/
def defaultObject (reg : TypeRegistry) : Nat → Nat → Option ObjectData
  | 0, _ => none
  | fuel + 1, typeId =>
    match chainOf reg (reg.length + 1) (some typeId) with
    | [] => none
    | chain =>
      some (ObjectData.mk typeId (chain.map (fun rt => rt.fields.map
        (fun f =>
          if f.isVectorType then
            match f.fieldType with
            | FieldKind.kPlain => FieldValue.plainArr []
            | FieldKind.kReflectable => FieldValue.reflArr []
            | FieldKind.kReflectablePtr => FieldValue.ptrArr []
            | FieldKind.kDataBlock => FieldValue.blockV []
          else
            match f.fieldType with
            | FieldKind.kPlain =>
              FieldValue.plainV (List.replicate f.typeSize 0)
            | FieldKind.kReflectable =>
              match defaultObject reg fuel f.elemTypeId with
              | some o => FieldValue.reflV o
              | none => FieldValue.reflV (ObjectData.mk f.elemTypeId [])
            | FieldKind.kReflectablePtr => FieldValue.ptrV none
            | FieldKind.kDataBlock => FieldValue.blockV []))))

/-! ## Binary encoding (geBinarySerializer.cpp 83–177, 251–512)

The byte stream is a `List Nat` of byte values; 32-bit words are
written little-endian.  The destination-buffer/flush-callback machinery
of `COPY_TO_BUFFER` only chunks the output; we model the byte sequence
it produces (an always-sufficient buffer, the flush callback never
failing), which is the concatenation of all flushed chunks. -/

def write32 (w : Nat) : List Nat :=
  [w % 256, w / 256 % 256, w / 65536 % 256, w / 16777216 % 256]

def read32 (data : List Nat) (pos : Nat) : Except String Nat :=
  match data.get? pos, data.get? (pos + 1), data.get? (pos + 2),
      data.get? (pos + 3) with
  | some b0, some b1, some b2, some b3 =>
    .ok (b0 + b1 * 256 + b2 * 65536 + b3 * 16777216)
  | _, _, _, _ => .error "Error decoding data."

def readBytes (data : List Nat) (pos n : Nat) : Except String (List Nat) :=
  if pos + n ≤ data.length then
    .ok ((data.drop pos).take n)
  else
    .error "Error decoding data."

/-- The encoder's per-call state: the emitted bytes
(`m_totalBytesWritten` worth of output), the queue of pointed-to
objects still to encode (`m_objectsToEncode`, pairs of persistent id
and address), the address-to-persistent-id map (`m_objectAddrToId`)
and the id counter (`m_lastUsedObjectId`). -/
structure EncState where
  out : List Nat
  objectsToEncode : List (Nat × Nat)
  objectAddrToId : List (Nat × Nat)
  lastUsedObjectId : Nat

/-- `BinarySerializer::findOrCreatePersistentId`. -/
def findOrCreatePersistentId (st : EncState) (addr : Nat) :
    Nat × EncState :=
  match st.objectAddrToId.find? (fun p => p.1 == addr) with
  | some p => (p.2, st)
  | none =>
    let objId := st.lastUsedObjectId
    (objId, { st with
      lastUsedObjectId := objId + 1
      objectAddrToId := st.objectAddrToId ++ [(addr, objId)] })

/-- `BinarySerializer::registerObjectPtr`: null maps to id 0; a new
address gets a fresh id and is queued for encoding; a known address
reuses its id and is not re-queued. -/
def registerObjectPtr (st : EncState) (optAddr : Option Nat) :
    Nat × EncState :=
  match optAddr with
  | none => (0, st)
  | some addr =>
    match st.objectAddrToId.find? (fun p => p.1 == addr) with
    | some p => (p.2, st)
    | none =>
      let (objId, st') := findOrCreatePersistentId st addr
      (objId, { st' with
        objectsToEncode := st'.objectsToEncode ++ [(objId, addr)] })

def EncState.emit (st : EncState) (bytes : List Nat) : EncState :=
  { st with out := st.out ++ bytes }

mutual
/-- `BinarySerializer::encodeEntry`: writes one object — for every
type in its inheritance chain (most-derived first), an ObjectMetaData
word pair followed by each field's FieldMetaData word and payload. -/
def encodeEntry (reg : TypeRegistry) (shallow : Bool) :
    Nat → ObjectData → Nat → EncState → Except String EncState
  | 0, _, _, _ => .error "out of fuel"
  | fuel + 1, obj, objectId, st =>
    let chain := chainOf reg (reg.length + 1) (some obj.typeId)
    if chain.length = 0 ∨ chain.length ≠ obj.levels.length then
      .error "object does not conform to its RTTI chain"
    else
      encodeLevels reg shallow fuel (chain.zip obj.levels) objectId
        false st
  termination_by structural fuel _ _ _ => fuel

def encodeLevels (reg : TypeRegistry) (shallow : Bool) :
    Nat → List (RTTIType × List FieldValue) → Nat → Bool → EncState →
    Except String EncState
  | 0, _, _, _, _ => .error "out of fuel"
  | _ + 1, [], _, _, st => .ok st
  | fuel + 1, (rt, vals) :: rest, objectId, isBaseClass, st => do
    let (w1, w2) ← encodeObjectMetaData objectId rt.typeId isBaseClass
    let st := st.emit (write32 w1 ++ write32 w2)
    if rt.fields.length ≠ vals.length then
      .error "object does not conform to its RTTI chain"
    else do
      let st ← encodeFields reg shallow fuel (rt.fields.zip vals) st
      encodeLevels reg shallow fuel rest objectId true st
  termination_by structural fuel _ _ _ _ => fuel

def encodeFields (reg : TypeRegistry) (shallow : Bool) :
    Nat → List (RTTIField × FieldValue) → EncState →
    Except String EncState
  | 0, _, _ => .error "out of fuel"
  | _ + 1, [], st => .ok st
  | fuel + 1, (f, v) :: rest, st => do
    let metaData := encodeFieldMetaData f.uniqueId (f.getTypeSize % 256)
      f.isVectorType f.fieldType f.hasDynSize false
    let st := st.emit (write32 metaData)
    let st ←
      if f.isVectorType then
        match f.fieldType, v with
        | FieldKind.kReflectablePtr, FieldValue.ptrArr addrs =>
          encodePtrArrElems fuel addrs shallow
            (st.emit (write32 addrs.length))
        | FieldKind.kReflectable, FieldValue.reflArr objs =>
          encodeReflArrElems reg shallow fuel objs
            (st.emit (write32 objs.length))
        | FieldKind.kPlain, FieldValue.plainArr elems =>
          encodePlainArrElems fuel f elems
            (st.emit (write32 elems.length))
        | _, _ =>
          .error "Error encoding data. Encountered a type I don't know how to encode."
      else
        match f.fieldType, v with
        | FieldKind.kReflectablePtr, FieldValue.ptrV a =>
          let childObject := if shallow then none else a
          let (objId, st) := registerObjectPtr st childObject
          .ok (st.emit (write32 objId))
        | FieldKind.kReflectable, FieldValue.reflV o =>
          complexTypeToBuffer reg shallow fuel o st
        | FieldKind.kPlain, FieldValue.plainV bytes =>
          let typeSize := if f.hasDynSize then bytes.length else f.typeSize
          if bytes.length = typeSize then
            .ok (st.emit bytes)
          else
            .error "plain value does not match its declared size"
        | FieldKind.kDataBlock, FieldValue.blockV bytes =>
          .ok ((st.emit (write32 bytes.length)).emit bytes)
        | _, _ =>
          .error "Error encoding data. Encountered a type I don't know how to encode."
    encodeFields reg shallow fuel rest st
  termination_by structural fuel _ _ => fuel

def encodePtrArrElems :
    Nat → List (Option Nat) → Bool → EncState → Except String EncState
  | 0, _, _, _ => .error "out of fuel"
  | _ + 1, [], _, st => .ok st
  | fuel + 1, a :: rest, shallow, st =>
    let childObject := if shallow then none else a
    let (objId, st) := registerObjectPtr st childObject
    encodePtrArrElems fuel rest shallow (st.emit (write32 objId))
  termination_by structural fuel _ _ _ => fuel

def encodeReflArrElems (reg : TypeRegistry) (shallow : Bool) :
    Nat → List ObjectData → EncState → Except String EncState
  | 0, _, _ => .error "out of fuel"
  | _ + 1, [], st => .ok st
  | fuel + 1, o :: rest, st => do
    let st ← complexTypeToBuffer reg shallow fuel o st
    encodeReflArrElems reg shallow fuel rest st
  termination_by structural fuel _ _ => fuel

def encodePlainArrElems :
    Nat → RTTIField → List (List Nat) → EncState → Except String EncState
  | 0, _, _, _ => .error "out of fuel"
  | _ + 1, _, [], st => .ok st
  | fuel + 1, f, e :: rest, st =>
    let typeSize := if f.hasDynSize then e.length else f.typeSize
    if e.length = typeSize then
      encodePlainArrElems fuel f rest (st.emit e)
    else
      .error "plain value does not match its declared size"
  termination_by structural fuel _ _ _ => fuel

/-- `BinarySerializer::complexTypeToBuffer`: encode the embedded object
(persistent id 0) and close it with a zero-field terminator word (the
call sites always pass a non-null object reference). -/
def complexTypeToBuffer (reg : TypeRegistry) (shallow : Bool) :
    Nat → ObjectData → EncState → Except String EncState
  | 0, _, _ => .error "out of fuel"
  | fuel + 1, o, st => do
    let st ← encodeEntry reg shallow fuel o 0 st
    let metaData := encodeFieldMetaData 0 0 false FieldKind.kPlain
      false true
    .ok (st.emit (write32 metaData))
  termination_by structural fuel _ _ => fuel
end

/-- One step of the queue-drain loop in `BinarySerializer::encode`:
find the first queue entry not yet serialized and detach it (entries
already in `serializedObjects` are skipped but stay queued, as in the
C++). -/
def findFirstNotSerialized (q : List (Nat × Nat))
    (serializedObjects : List Nat) :
    Option ((Nat × Nat) × List (Nat × Nat)) :=
  match q with
  | [] => none
  | e :: rest =>
    if serializedObjects.contains e.1 then
      match findFirstNotSerialized rest serializedObjects with
      | none => none
      | some (x, rest') => some (x, e :: rest')
    else
      some (e, rest)

/-- The queue-drain loop of `BinarySerializer::encode` (lines
118–162): repeatedly encode the first unserialized queued object until
the queue holds only already-serialized ids. -/
def encodeLoop (reg : TypeRegistry) (heap : Heap) (shallow : Bool) :
    Nat → EncState → List Nat → Except String EncState
  | 0, _, _ => .error "out of fuel"
  | fuel + 1, st, serializedObjects =>
    match findFirstNotSerialized st.objectsToEncode serializedObjects with
    | none => .ok st
    | some ((objId, addr), rest) => do
      let serializedObjects := serializedObjects ++ [objId]
      let st := { st with objectsToEncode := rest }
      match heap.get addr with
      | none => .error "dangling object pointer"
      | some obj => do
        let st ← encodeEntry reg shallow fuel obj objId st
        encodeLoop reg heap shallow fuel st serializedObjects

/-- `BinarySerializer::encode`: encode the root object, then drain the
queue of referenced objects; the result is the emitted byte stream. -/
def encode (reg : TypeRegistry) (heap : Heap) (rootAddr : Nat)
    (shallow : Bool) (fuel : Nat) : Except String (List Nat) := do
  let st0 : EncState :=
    { out := [], objectsToEncode := [], objectAddrToId := []
      lastUsedObjectId := 1 }
  match heap.get rootAddr with
  | none => .error "null root object"
  | some obj => do
    let (objectId, st1) := findOrCreatePersistentId st0 rootAddr
    let st2 ← encodeEntry reg shallow fuel obj objectId st1
    let st3 ← encodeLoop reg heap shallow fuel st2 []
    .ok st3.out

/-! ## Binary decoding (geBinarySerializer.cpp 179–249, 514–973)

`m_decodeObjectMap` is a `Map<uint32, ObjectToDecode>` (an ordered
`std::map`), modelled as an association list kept sorted by key with
`std::map::insert` semantics (no overwrite of an existing key).
Decoded instances live in a `Heap`; a null `SPtr<IReflectable>` is
`none`. -/

structure ObjectToDecode where
  addr : Option Nat
  offset : Nat
  isDecoded : Bool
  decodeInProgress : Bool

structure DecState where
  heap : Heap
  decodeObjectMap : List (Nat × ObjectToDecode)

def mapLookupOTD (m : List (Nat × ObjectToDecode)) (k : Nat) :
    Option ObjectToDecode :=
  (m.find? (fun p => p.1 == k)).map Prod.snd

def mapUpdateOTD (m : List (Nat × ObjectToDecode)) (k : Nat)
    (f : ObjectToDecode → ObjectToDecode) :
    List (Nat × ObjectToDecode) :=
  m.map (fun p => if p.1 == k then (p.1, f p.2) else p)

def mapInsertSorted (m : List (Nat × ObjectToDecode)) (k : Nat)
    (v : ObjectToDecode) : List (Nat × ObjectToDecode) :=
  match m with
  | [] => [(k, v)]
  | (k', v') :: rest =>
    if k < k' then (k, v) :: (k', v') :: rest
    else if k = k' then (k', v') :: rest
    else (k', v') :: mapInsertSorted rest k v

/-- Apply a field-value transformation at (address, chain level, field
position) of a live heap object. -/
def DecState.modifyField (st : DecState) (addr lvl idx : Nat)
    (g : FieldValue → FieldValue) : DecState :=
  match st.heap.get addr with
  | none => st
  | some o =>
    match o.getFV lvl idx with
    | none => st
    | some cur =>
      { st with heap := st.heap.setObj addr (o.setFV lvl idx (g cur)) }

def DecState.setField (st : DecState) (addr lvl idx : Nat)
    (v : FieldValue) : DecState :=
  st.modifyField addr lvl idx (fun _ => v)

def resizeTo {α : Type} (l : List α) (n : Nat) (d : α) : List α :=
  l.take n ++ List.replicate (n - l.length) d

/-- `RTTIField::setArraySize`: resize the host vector, filling new
slots with default-constructed elements. -/
def setArraySizeOn (reg : TypeRegistry) (fuel : Nat) (st : DecState)
    (addr lvl idx : Nat) (f : RTTIField) (n : Nat) : DecState :=
  st.modifyField addr lvl idx (fun cur =>
    match f.fieldType with
    | FieldKind.kPlain =>
      let d := if f.plainHasDynamicSize then []
        else List.replicate f.typeSize 0
      match cur with
      | FieldValue.plainArr l => FieldValue.plainArr (resizeTo l n d)
      | _ => FieldValue.plainArr (resizeTo [] n d)
    | FieldKind.kReflectable =>
      let d := (defaultObject reg fuel f.elemTypeId).getD
        (ObjectData.mk f.elemTypeId [])
      match cur with
      | FieldValue.reflArr l => FieldValue.reflArr (resizeTo l n d)
      | _ => FieldValue.reflArr (resizeTo [] n d)
    | FieldKind.kReflectablePtr =>
      match cur with
      | FieldValue.ptrArr l => FieldValue.ptrArr (resizeTo l n none)
      | _ => FieldValue.ptrArr (resizeTo [] n none)
    | FieldKind.kDataBlock => cur)

def setPtrArrElemOn (st : DecState) (addr lvl idx i : Nat)
    (a : Option Nat) : DecState :=
  st.modifyField addr lvl idx (fun cur =>
    match cur with
    | FieldValue.ptrArr l => FieldValue.ptrArr (l.set i a)
    | other => other)

def setReflArrElemOn (st : DecState) (addr lvl idx i : Nat)
    (o : ObjectData) : DecState :=
  st.modifyField addr lvl idx (fun cur =>
    match cur with
    | FieldValue.reflArr l => FieldValue.reflArr (l.set i o)
    | other => other)

def setPlainArrElemOn (st : DecState) (addr lvl idx i : Nat)
    (bytes : List Nat) : DecState :=
  st.modifyField addr lvl idx (fun cur =>
    match cur with
    | FieldValue.plainArr l => FieldValue.plainArr (l.set i bytes)
    | other => other)

def findFieldIdxAux (uniqueFieldId : Nat) :
    Nat → List RTTIField → Option (Nat × RTTIField)
  | _, [] => none
  | i, f :: rest =>
    if f.uniqueId = uniqueFieldId then some (i, f)
    else findFieldIdxAux uniqueFieldId (i + 1) rest

/-- `findField` together with the field's position inside its type
(the position is where the host accessor reads/writes the value). -/
def RTTIType.findFieldIdx (rt : RTTIType) (uniqueFieldId : Nat) :
    Option (Nat × RTTIField) :=
  findFieldIdxAux uniqueFieldId 0 rt.fields

/-- The per-field target of a decode: the output object's address, the
active chain level, the field's position in that level, and the field
descriptor — present only when the output instance exists and the
stream field id maps to a live field (`curGenericField != nullptr`). -/
abbrev DecodeTarget := Option (Nat × Nat × Nat × RTTIField)

mutual
/-- `BinarySerializer::decodeEntry`: reads one object record starting
at its ObjectMetaData, decoding into `output` (a null output skips all
payloads).  Returns `true` if it stopped at the start of a following
top-level object, `false` at a terminator or the region end, together
with the final stream position. -/
def decodeEntry (reg : TypeRegistry) (data : List Nat) (dataEnd : Nat) :
    Nat → Nat → Option Nat → DecState →
    Except String (Bool × Nat × DecState)
  | 0, _, _, _ => .error "out of fuel"
  | fuel + 1, pos, output, st => do
    let w1 ← read32 data pos
    let w2 ← read32 data (pos + 4)
    let (_objectId, _objectTypeId, objectIsBaseClass) ←
      decodeObjectMetaData (w1, w2)
    if objectIsBaseClass then
      .error "Encountered a base-class object while looking for a new object."
    else
      let chain :=
        match output with
        | none => []
        | some addr =>
          match st.heap.get addr with
          | none => []
          | some o => chainOf reg (reg.length + 1) (some o.typeId)
      let curLevel : Option Nat := if chain.length = 0 then none else some 0
      decodeFieldLoop reg data dataEnd fuel (pos + 8) output chain
        curLevel st
  termination_by structural fuel _ _ _ => fuel

/-- The `while (data->tell() < dataEnd)` field loop of `decodeEntry`. -/
def decodeFieldLoop (reg : TypeRegistry) (data : List Nat)
    (dataEnd : Nat) :
    Nat → Nat → Option Nat → List RTTIType → Option Nat → DecState →
    Except String (Bool × Nat × DecState)
  | 0, _, _, _, _, _ => .error "out of fuel"
  | fuel + 1, pos, output, chain, curLevel, st =>
    if pos < dataEnd then do
      let metaData ← read32 data pos
      if isObjectMetaData metaData then do
        let w1 ← read32 data pos
        let w2 ← read32 data (pos + 4)
        let (_objId, objTypeId, objIsBaseClass) ←
          decodeObjectMetaData (w1, w2)
        if objIsBaseClass then
          let newLevel : Option Nat :=
            match curLevel with
            | none => none
            | some i =>
              match chain.get? (i + 1) with
              | some rt =>
                if rt.typeId = objTypeId then some (i + 1) else none
              | none => none
          decodeFieldLoop reg data dataEnd fuel (pos + 8) output chain
            newLevel st
        else
          .ok (true, pos, st)
      else do
        let fm ← decodeFieldMetaData metaData
        let pos := pos + 4
        if fm.terminator then
          .ok (false, pos, st)
        else
          let fieldOpt : Option (Nat × RTTIField) :=
            curLevel.bind (fun i =>
              (chain.get? i).bind (fun rt => rt.findFieldIdx fm.id))
          let check : Except String Unit :=
            match fieldOpt with
            | none => .ok ()
            | some (_, f) =>
              if fm.hasDynamicSize = false ∧ f.getTypeSize ≠ fm.size then
                .error "Data type mismatch. Type size stored in file and actual type size don't match."
              else if f.isVectorType ≠ fm.array then
                .error "Data type mismatch. One is array, other is a single type."
              else if f.fieldType ≠ fm.type then
                .error "Data type mismatch. Field types don't match."
              else .ok ()
          let _ ← check
          let target : DecodeTarget :=
            match output, curLevel, fieldOpt with
            | some addr, some lvl, some (idx, f) => some (addr, lvl, idx, f)
            | _, _, _ => none
          if fm.array then do
            let arrayNumElems ← read32 data pos
            let pos := pos + 4
            let st :=
              match target with
              | some (addr, lvl, idx, f) =>
                setArraySizeOn reg fuel st addr lvl idx f arrayNumElems
              | none => st
            match fm.type with
            | FieldKind.kReflectablePtr => do
              let (pos, st) ← decodePtrArrElemsD reg data dataEnd fuel
                arrayNumElems 0 target pos st
              decodeFieldLoop reg data dataEnd fuel pos output chain
                curLevel st
            | FieldKind.kReflectable => do
              let (pos, st) ← decodeReflArrElemsD reg data dataEnd fuel
                arrayNumElems 0 target pos st
              decodeFieldLoop reg data dataEnd fuel pos output chain
                curLevel st
            | FieldKind.kPlain => do
              let (pos, st) ← decodePlainArrElemsD reg data fuel
                arrayNumElems 0 fm target pos st
              decodeFieldLoop reg data dataEnd fuel pos output chain
                curLevel st
            | FieldKind.kDataBlock =>
              .error "Error decoding data. Encountered a type I don't know how to decode."
          else
            match fm.type with
            | FieldKind.kReflectablePtr => do
              let childObjectId ← read32 data pos
              let pos := pos + 4
              match target with
              | some (addr, lvl, idx, f) => do
                let (resolved, st) ← resolveChildObject reg data dataEnd
                  fuel childObjectId f.weakRef st
                let st := st.setField addr lvl idx
                  (FieldValue.ptrV resolved)
                decodeFieldLoop reg data dataEnd fuel pos output chain
                  curLevel st
              | none =>
                decodeFieldLoop reg data dataEnd fuel pos output chain
                  curLevel st
            | FieldKind.kReflectable => do
              let (childAddrOpt, st) : Option Nat × DecState :=
                match target with
                | some (_, _, _, f) =>
                  match defaultObject reg fuel f.elemTypeId with
                  | some o =>
                    let (a, h) := st.heap.alloc o
                    (some a, { st with heap := h })
                  | none => (none, st)
                | none => (none, st)
              let (_, pos, st) ← decodeEntry reg data dataEnd fuel pos
                childAddrOpt st
              let st :=
                match target, childAddrOpt with
                | some (addr, lvl, idx, _), some ca =>
                  match st.heap.get ca with
                  | some childVal =>
                    st.setField addr lvl idx (FieldValue.reflV childVal)
                  | none => st
                | _, _ => st
              decodeFieldLoop reg data dataEnd fuel pos output chain
                curLevel st
            | FieldKind.kPlain => do
              let typeSize ←
                if fm.hasDynamicSize then read32 data pos
                else pure fm.size
              match target with
              | some (addr, lvl, idx, _) => do
                let bytes ← readBytes data pos typeSize
                let st := st.setField addr lvl idx
                  (FieldValue.plainV bytes)
                decodeFieldLoop reg data dataEnd fuel (pos + typeSize)
                  output chain curLevel st
              | none =>
                decodeFieldLoop reg data dataEnd fuel (pos + typeSize)
                  output chain curLevel st
            | FieldKind.kDataBlock => do
              let dataBlockSize ← read32 data pos
              let pos := pos + 4
              match target with
              | some (addr, lvl, idx, _) => do
                let bytes ← readBytes data pos dataBlockSize
                let st := st.setField addr lvl idx
                  (FieldValue.blockV bytes)
                decodeFieldLoop reg data dataEnd fuel
                  (pos + dataBlockSize) output chain curLevel st
              | none =>
                decodeFieldLoop reg data dataEnd fuel
                  (pos + dataBlockSize) output chain curLevel st
    else
      .ok (false, pos, st)
  termination_by structural fuel _ _ _ _ _ => fuel

/-- Resolution of one stored ReflectablePtr persistent id against
`m_decodeObjectMap`: a missing id resolves to null (with a logged
warning when non-zero); a present id is recursively decoded first when
the field is non-weak and the target not yet decoded, except that an
in-progress target (a true cycle) is not re-entered — only a warning
is logged and the partial instance is used. -/
def resolveChildObject (reg : TypeRegistry) (data : List Nat)
    (dataEnd : Nat) :
    Nat → Nat → Bool → DecState → Except String (Option Nat × DecState)
  | 0, _, _, _ => .error "out of fuel"
  | fuel + 1, childObjectId, weakRef, st =>
    match mapLookupOTD st.decodeObjectMap childObjectId with
    | none => .ok (none, st)
    | some objToDecode =>
      let needsDecoding := weakRef = false ∧ objToDecode.isDecoded = false
      if needsDecoding then
        if objToDecode.decodeInProgress then
          .ok (objToDecode.addr, st)
        else do
          let m1 := mapUpdateOTD st.decodeObjectMap childObjectId
            (fun o => { o with decodeInProgress := true })
          let st := { st with decodeObjectMap := m1 }
          let (_, _, st) ← decodeEntry reg data dataEnd fuel
            objToDecode.offset objToDecode.addr st
          let m2 := mapUpdateOTD st.decodeObjectMap childObjectId
            (fun o => { o with decodeInProgress := false, isDecoded := true })
          let st := { st with decodeObjectMap := m2 }
          .ok (objToDecode.addr, st)
      else
        .ok (objToDecode.addr, st)
  termination_by structural fuel _ _ _ => fuel

def decodePtrArrElemsD (reg : TypeRegistry) (data : List Nat)
    (dataEnd : Nat) :
    Nat → Nat → Nat → DecodeTarget → Nat → DecState →
    Except String (Nat × DecState)
  | 0, _, _, _, _, _ => .error "out of fuel"
  | _ + 1, 0, _, _, pos, st => .ok (pos, st)
  | fuel + 1, remaining + 1, i, target, pos, st => do
    let childObjectId ← read32 data pos
    let pos := pos + 4
    match target with
    | some (addr, lvl, idx, f) => do
      let (resolved, st) ← resolveChildObject reg data dataEnd fuel
        childObjectId f.weakRef st
      let st := setPtrArrElemOn st addr lvl idx i resolved
      decodePtrArrElemsD reg data dataEnd fuel remaining (i + 1) target
        pos st
    | none =>
      decodePtrArrElemsD reg data dataEnd fuel remaining (i + 1) target
        pos st
  termination_by structural fuel _ _ _ _ _ => fuel

def decodeReflArrElemsD (reg : TypeRegistry) (data : List Nat)
    (dataEnd : Nat) :
    Nat → Nat → Nat → DecodeTarget → Nat → DecState →
    Except String (Nat × DecState)
  | 0, _, _, _, _, _ => .error "out of fuel"
  | _ + 1, 0, _, _, pos, st => .ok (pos, st)
  | fuel + 1, remaining + 1, i, target, pos, st => do
    let (childAddrOpt, st) : Option Nat × DecState :=
      match target with
      | some (_, _, _, f) =>
        match defaultObject reg fuel f.elemTypeId with
        | some o =>
          let (a, h) := st.heap.alloc o
          (some a, { st with heap := h })
        | none => (none, st)
      | none => (none, st)
    let (_, pos, st) ← decodeEntry reg data dataEnd fuel pos
      childAddrOpt st
    let st :=
      match target, childAddrOpt with
      | some (addr, lvl, idx, _), some ca =>
        match st.heap.get ca with
        | some childVal => setReflArrElemOn st addr lvl idx i childVal
        | none => st
      | _, _ => st
    decodeReflArrElemsD reg data dataEnd fuel remaining (i + 1) target
      pos st
  termination_by structural fuel _ _ _ _ _ => fuel

def decodePlainArrElemsD (reg : TypeRegistry) (data : List Nat) :
    Nat → Nat → Nat → FieldMeta → DecodeTarget → Nat → DecState →
    Except String (Nat × DecState)
  | 0, _, _, _, _, _, _ => .error "out of fuel"
  | _ + 1, 0, _, _, _, pos, st => .ok (pos, st)
  | fuel + 1, remaining + 1, i, fm, target, pos, st => do
    let typeSize ←
      if fm.hasDynamicSize then read32 data pos else pure fm.size
    match target with
    | some (addr, lvl, idx, _) => do
      let bytes ← readBytes data pos typeSize
      let st := setPlainArrElemOn st addr lvl idx i bytes
      decodePlainArrElemsD reg data fuel remaining (i + 1) fm target
        (pos + typeSize) st
    | none =>
      decodePlainArrElemsD reg data fuel remaining (i + 1) fm target
        (pos + typeSize) st
  termination_by structural fuel _ _ _ _ _ _ => fuel
end

/-- Phase 1 of `BinarySerializer::decode`: scan every top-level object
record, create a default instance per persistent id
(`createInstanceFromTypeId`, null for unknown type ids), record its
stream offset, and remember the first instance as the root. -/
def decodePhase1 (reg : TypeRegistry) (data : List Nat) (dataEnd : Nat) :
    Nat → Nat → DecState → Option Nat →
    Except String (DecState × Option Nat)
  | 0, _, _, _ => .error "out of fuel"
  | fuel + 1, pos, st, rootObject => do
    let w1 ← read32 data pos
    let w2 ← read32 data (pos + 4)
    let (objectId, objectTypeId, objectIsBaseClass) ←
      decodeObjectMetaData (w1, w2)
    if objectIsBaseClass then
      .error "Encountered a base-class object while looking for a new object."
    else do
      let (objAddr, heap') : Option Nat × Heap :=
        match defaultObject reg fuel objectTypeId with
        | some o =>
          let (a, h) := st.heap.alloc o
          (some a, h)
        | none => (none, st.heap)
      let st : DecState :=
        { heap := heap'
          decodeObjectMap := mapInsertSorted st.decodeObjectMap objectId
            ⟨objAddr, pos, false, false⟩ }
      let rootObject :=
        match rootObject with
        | none => objAddr
        | some r => some r
      let (cont, pos, st) ← decodeEntry reg data dataEnd fuel pos none st
      if cont then
        decodePhase1 reg data dataEnd fuel pos st rootObject
      else
        .ok (st, rootObject)

/-- Phase 2 of `BinarySerializer::decode`: walk the object map in key
order and decode every not-yet-decoded instance at its recorded
offset (recursively-triggered decodes are skipped on their own turn
through `isDecoded`). -/
def decodePhase2 (reg : TypeRegistry) (data : List Nat) (dataEnd : Nat) :
    Nat → List Nat → DecState → Except String DecState
  | 0, _, _ => .error "out of fuel"
  | _ + 1, [], st => .ok st
  | fuel + 1, k :: rest, st =>
    match mapLookupOTD st.decodeObjectMap k with
    | none => decodePhase2 reg data dataEnd fuel rest st
    | some objToDecode =>
      if objToDecode.isDecoded then
        decodePhase2 reg data dataEnd fuel rest st
      else do
        let m1 := mapUpdateOTD st.decodeObjectMap k
          (fun o => { o with decodeInProgress := true })
        let st := { st with decodeObjectMap := m1 }
        let (_, _, st) ← decodeEntry reg data dataEnd fuel
          objToDecode.offset objToDecode.addr st
        let m2 := mapUpdateOTD st.decodeObjectMap k
          (fun o => { o with decodeInProgress := false, isDecoded := true })
        decodePhase2 reg data dataEnd fuel rest
          { st with decodeObjectMap := m2 }

/-- `BinarySerializer::decode`: two-phase decode of a byte region; the
result is the root instance (if any) plus the heap holding every
created instance. -/
def decode (reg : TypeRegistry) (heap0 : Heap) (data : List Nat)
    (dataLength : Nat) (fuel : Nat) :
    Except String (Option Nat × Heap) :=
  if dataLength = 0 then .ok (none, heap0)
  else do
    let st0 : DecState := ⟨heap0, []⟩
    let (st, rootObject) ← decodePhase1 reg data dataLength fuel 0 st0
      none
    let keys := st.decodeObjectMap.map Prod.fst
    let st ← decodePhase2 reg data dataLength fuel keys st
    .ok (rootObject, st.heap)

/-! ## Concrete reflectable families used by the end-to-end theorems

`sharedRef*`: an object A (type 20) with two ReflectablePtr fields both
aimed at one object C (type 21, one 2-byte plain field).
`cycle*`: A (type 30, plain + strong ReflectablePtr) referencing B
(type 31, plain + weak ReflectablePtr) which references A back.
The plain payload bytes are arbitrary. -/

def sharedRefRegistry : TypeRegistry :=
  [⟨20, [⟨1, FieldKind.kReflectablePtr, false, 0, false, false, 21⟩,
         ⟨2, FieldKind.kReflectablePtr, false, 0, false, false, 21⟩],
    none⟩,
   ⟨21, [⟨7, FieldKind.kPlain, false, 2, false, false, 0⟩], none⟩]

def sharedRefHeap (c0 c1 : Nat) : Heap :=
  ⟨[(0, ObjectData.mk 20
      [[FieldValue.ptrV (some 1), FieldValue.ptrV (some 1)]]),
    (1, ObjectData.mk 21 [[FieldValue.plainV [c0, c1]]])], 2⟩

/-- The byte stream `encode` produces for `sharedRefHeap`: object A
(persistent id 1) with both ReflectablePtr payloads holding the SAME
persistent id 2, followed by exactly one record for C (persistent id
2). -/
def sharedRefBytes (c0 c1 : Nat) : List Nat :=
  [5, 0, 0, 0, 20, 0, 0, 0,
   48, 0, 1, 0, 2, 0, 0, 0,
   48, 0, 2, 0, 2, 0, 0, 0,
   9, 0, 0, 0, 21, 0, 0, 0,
   0, 2, 7, 0, c0, c1]

def cycleRegistry : TypeRegistry :=
  [⟨30, [⟨1, FieldKind.kPlain, false, 4, false, false, 0⟩,
         ⟨2, FieldKind.kReflectablePtr, false, 0, false, false, 31⟩],
    none⟩,
   ⟨31, [⟨1, FieldKind.kPlain, false, 4, false, false, 0⟩,
         ⟨2, FieldKind.kReflectablePtr, false, 0, false, true, 30⟩],
    none⟩]

def cycleHeap (a b : List Nat) : Heap :=
  ⟨[(0, ObjectData.mk 30 [[FieldValue.plainV a, FieldValue.ptrV (some 1)]]),
    (1, ObjectData.mk 31 [[FieldValue.plainV b, FieldValue.ptrV (some 0)]])],
   2⟩

/-- The byte stream `encode` produces for `cycleHeap`: A's strong
reference stores persistent id 2 (B); B's weak back-reference stores
persistent id 1 (A); each object is encoded exactly once. -/
def cycleBytes (b0 b1 b2 b3 : Nat) : List Nat :=
  [5, 0, 0, 0, 30, 0, 0, 0,
   0, 4, 1, 0, 1, 2, 3, 4,
   48, 0, 2, 0, 2, 0, 0, 0,
   9, 0, 0, 0, 31, 0, 0, 0,
   0, 4, 1, 0, b0, b1, b2, b3,
   48, 0, 2, 0, 1, 0, 0, 0]

/-- C3: if an object A has two ReflectablePtr fields that both point at
the same object C, then (i) `registerObjectPtr` assigns a fresh
persistent id and enqueues C only on the first occurrence, and returns
the identical id with no state change on the second; and (ii) on the
two-field family, encode writes the same persistent id 2 for both
fields with C's record appearing exactly once in the stream, and after
encode-then-decode both fields of the decoded A point at one and the
same new instance (pointer-equal addresses). -/
theorem reflectablePtr_dedup
    (st st1 st2 : EncState) (addr id1 id2 : Nat)
    (hfresh : st.objectAddrToId.find? (fun p => p.1 == addr) = none)
    (h1 : registerObjectPtr st (some addr) = (id1, st1))
    (h2 : registerObjectPtr st1 (some addr) = (id2, st2))
    (c0 c1 : Nat) :
    (id1 = st.lastUsedObjectId ∧
     st1.objectsToEncode = st.objectsToEncode ++ [(id1, addr)] ∧
     id2 = id1 ∧ st2 = st1) ∧
    (encode sharedRefRegistry (sharedRefHeap c0 c1) 0 false 100 =
       .ok (sharedRefBytes c0 c1) ∧
     decode sharedRefRegistry ⟨[], 0⟩ (sharedRefBytes c0 c1)
         (sharedRefBytes c0 c1).length 100 =
       .ok (some 0,
         ⟨[(0, ObjectData.mk 20
             [[FieldValue.ptrV (some 1), FieldValue.ptrV (some 1)]]),
           (1, ObjectData.mk 21 [[FieldValue.plainV [c0, c1]]])], 2⟩)) := by
  constructor
  · simp only [registerObjectPtr, findOrCreatePersistentId, hfresh,
      Prod.mk.injEq] at h1
    obtain ⟨hid1, hst1⟩ := h1
    simp only [registerObjectPtr, ← hst1, List.find?_append, hfresh,
      Option.none_or, List.find?_cons, beq_self_eq_true,
      Prod.mk.injEq] at h2
    obtain ⟨hid2, hst2⟩ := h2
    refine ⟨hid1.symm, ?_, ?_, hst2.symm.trans hst1⟩
    · rw [← hst1, hid1]
    · omega
  · exact ⟨rfl, rfl⟩

theorem reflectablePtr_dedup_witness :
    encode sharedRefRegistry (sharedRefHeap 9 9) 0 false 100 =
      .ok (sharedRefBytes 9 9) ∧
    decode sharedRefRegistry ⟨[], 0⟩ (sharedRefBytes 9 9)
        (sharedRefBytes 9 9).length 100 =
      .ok (some 0,
        ⟨[(0, ObjectData.mk 20
            [[FieldValue.ptrV (some 1), FieldValue.ptrV (some 1)]]),
          (1, ObjectData.mk 21 [[FieldValue.plainV [9, 9]]])], 2⟩) :=
  (reflectablePtr_dedup
    ⟨[], [], [], 1⟩ ⟨[], [(1, 5)], [(5, 1)], 2⟩ ⟨[], [(1, 5)], [(5, 1)], 2⟩
    5 1 1 rfl rfl rfl 9 9).2

set_option maxHeartbeats 8000000 in
/-- C4: encoding and then decoding a two-object graph in which A's
ReflectablePtr field targets B and B's weak ReflectablePtr field
targets A terminates: (i) a decode that would re-enter an object whose
decode is already in progress is detected via the `decodeInProgress`
flag and does not recurse (only a warning is logged; the decoder state
is returned untouched with the partial instance), and (ii) on the
cycle family, encode-then-decode completes within bounded fuel and the
decoded B's field resolves to the same instance as the decoded A, so
the decoded pair forms the same cycle. -/
theorem cycle_decode_terminates
    (reg : TypeRegistry) (data : List Nat) (dataEnd fuel : Nat)
    (childObjectId : Nat) (weakRef : Bool) (st : DecState)
    (otd : ObjectToDecode)
    (hlook : mapLookupOTD st.decodeObjectMap childObjectId = some otd)
    (hprog : otd.decodeInProgress = true)
    (b0 b1 b2 b3 : Nat) :
    resolveChildObject reg data dataEnd (fuel + 1) childObjectId weakRef
        st =
      .ok (otd.addr, st) ∧
    encode cycleRegistry (cycleHeap [1, 2, 3, 4] [b0, b1, b2, b3])
        0 false 100 =
      .ok (cycleBytes b0 b1 b2 b3) ∧
    decode cycleRegistry ⟨[], 0⟩ (cycleBytes b0 b1 b2 b3)
        (cycleBytes b0 b1 b2 b3).length 100 =
      .ok (some 0,
        ⟨[(0, ObjectData.mk 30
            [[FieldValue.plainV [1, 2, 3, 4],
              FieldValue.ptrV (some 1)]]),
          (1, ObjectData.mk 31
            [[FieldValue.plainV [b0, b1, b2, b3],
              FieldValue.ptrV (some 0)]])], 2⟩) := by
  refine ⟨?_, by rfl, by rfl⟩
  simp only [resolveChildObject, hlook, hprog, if_true]
  split <;> rfl

set_option maxHeartbeats 2000000 in
theorem cycle_decode_terminates_witness :
    resolveChildObject [] [] 0 1 4 false
        ⟨⟨[], 0⟩, [(4, ⟨some 9, 0, false, true⟩)]⟩ =
      .ok (some 9, ⟨⟨[], 0⟩, [(4, ⟨some 9, 0, false, true⟩)]⟩) ∧
    encode cycleRegistry (cycleHeap [1, 2, 3, 4] [5, 6, 7, 8])
        0 false 100 =
      .ok (cycleBytes 5 6 7 8) ∧
    decode cycleRegistry ⟨[], 0⟩ (cycleBytes 5 6 7 8)
        (cycleBytes 5 6 7 8).length 100 =
      .ok (some 0,
        ⟨[(0, ObjectData.mk 30
            [[FieldValue.plainV [1, 2, 3, 4],
              FieldValue.ptrV (some 1)]]),
          (1, ObjectData.mk 31
            [[FieldValue.plainV [5, 6, 7, 8],
              FieldValue.ptrV (some 0)]])], 2⟩) :=
  cycle_decode_terminates [] [] 0 0 4 false
    ⟨⟨[], 0⟩, [(4, ⟨some 9, 0, false, true⟩)]⟩
    ⟨some 9, 0, false, true⟩ rfl rfl 5 6 7 8

/-! ## Claim C7: missing persistent id resolves to null

`refMissingBytes` / `refMissingArrBytes` are hand-crafted streams whose
ReflectablePtr payloads store persistent id 7, which no object record
in the stream carries. -/

def refMissingBytes : List Nat :=
  [5, 0, 0, 0, 20, 0, 0, 0,
   48, 0, 1, 0, 7, 0, 0, 0,
   48, 0, 2, 0, 0, 0, 0, 0]

def ptrArrRegistry : TypeRegistry :=
  [⟨22, [⟨3, FieldKind.kReflectablePtr, true, 0, false, false, 0⟩],
    none⟩]

def refMissingArrBytes : List Nat :=
  [5, 0, 0, 0, 22, 0, 0, 0,
   50, 0, 3, 0, 2, 0, 0, 0,
   7, 0, 0, 0, 0, 0, 0, 0]

/-- C7: when a decoded ReflectablePtr field's stored persistent id is
not present in the phase-1 id table, the call does not fail: (i)
`resolveChildObject` on an id absent from `m_decodeObjectMap` returns
the null reference with the state untouched (the caller stores null
into the field and only a warning is logged when the id is non-zero);
(ii) and (iii): decoding streams whose single ReflectablePtr field
(resp. ReflectablePtr array element) stores the absent id 7 still
succeeds, sets the field (element) to null, keeps decoding the
remaining fields and returns a root object. -/
theorem missing_reference_resolves_null
    (reg : TypeRegistry) (data : List Nat) (dataEnd fuel : Nat)
    (childObjectId : Nat) (weakRef : Bool) (st : DecState)
    (habsent : mapLookupOTD st.decodeObjectMap childObjectId = none) :
    resolveChildObject reg data dataEnd (fuel + 1) childObjectId weakRef
        st =
      .ok (none, st) ∧
    decode sharedRefRegistry ⟨[], 0⟩ refMissingBytes
        refMissingBytes.length 100 =
      .ok (some 0,
        ⟨[(0, ObjectData.mk 20
            [[FieldValue.ptrV none, FieldValue.ptrV none]])], 1⟩) ∧
    decode ptrArrRegistry ⟨[], 0⟩ refMissingArrBytes
        refMissingArrBytes.length 100 =
      .ok (some 0,
        ⟨[(0, ObjectData.mk 22 [[FieldValue.ptrArr [none, none]]])],
         1⟩) := by
  refine ⟨?_, rfl, rfl⟩
  simp only [resolveChildObject, habsent]

theorem missing_reference_resolves_null_witness :
    resolveChildObject [] [] 0 1 7 false ⟨⟨[], 0⟩, []⟩ =
      .ok (none, ⟨⟨[], 0⟩, []⟩) :=
  (missing_reference_resolves_null [] [] 0 0 7 false ⟨⟨[], 0⟩, []⟩
    rfl).1

/-! ## Serialized object trees (geSerializedObject.cpp)

`SerializedInstance` and its variants mirror `SerializedObject`
(`subObjects`), `SerializedField` (`size`/`value`), `SerializedArray`
(`numElements`/`entries`) and `SerializedDataBlock` (a memory-backed
stream of `size` bytes).  A `nid` on each object node models the
`SPtr<SerializedObject>` pointer identity that `IDiff::ObjectMap` and
`DiffObjectMap` key on; entry maps (`UnorderedMap<uint32,
SerializedEntry>` / `Map<uint32, SerializedArrayEntry>`) are
association lists, an entry's `serialized` member being `none` for a
null `SPtr<SerializedInstance>`. -/

mutual
inductive SerializedInstance where
  | obj (nid : Nat) (subObjects : List SerializedSubObject)
  | field (size : Nat) (value : List Nat)
  | arr (numElements : Nat)
      (entries : List (Nat × Option SerializedInstance))
  | dataBlock (size : Nat) (bytes : List Nat)

inductive SerializedSubObject where
  | mk (typeId : Nat)
      (entries : List (Nat × Option SerializedInstance))
end

def SerializedSubObject.typeId : SerializedSubObject → Nat
  | .mk t _ => t

def SerializedSubObject.entries :
    SerializedSubObject → List (Nat × Option SerializedInstance)
  | .mk _ es => es

/-- `SerializedObject::getRootTypeId`: the type id of the first
sub-object, 0 when there are none (only object nodes carry
sub-objects). -/
def SerializedInstance.getRootTypeId : SerializedInstance → Nat
  | .obj _ subObjects =>
    match subObjects with
    | [] => 0
    | so :: _ => so.typeId
  | _ => 0

def SerializedInstance.nidOf : SerializedInstance → Nat
  | .obj nid _ => nid
  | _ => 0

mutual
/-- `SerializedInstance::clone(cloneData = true)`: a deep copy; object
nodes get fresh pointer identities drawn from the counter.
`SerializedObject::clone` skips null entries;
`SerializedArray::clone` dereferences each element's `serialized`
without a null check, so a null array element is undefined behavior
(an error here). -/
def cloneInstance : Nat → SerializedInstance → Nat →
    Except String (SerializedInstance × Nat)
  | 0, _, _ => .error "out of fuel"
  | fuel + 1, s, ctr =>
    match s with
    | .obj _ subObjects => do
      let (subs, ctr') ← cloneSubObjects fuel subObjects ctr
      .ok (.obj ctr' subs, ctr' + 1)
    | .field size value => .ok (.field size value, ctr)
    | .arr numElements entries => do
      let (es, ctr') ← cloneArrEntries fuel entries ctr
      .ok (.arr numElements es, ctr')
    | .dataBlock size bytes => .ok (.dataBlock size bytes, ctr)
  termination_by structural fuel _ _ => fuel

def cloneSubObjects : Nat → List SerializedSubObject → Nat →
    Except String (List SerializedSubObject × Nat)
  | 0, _, _ => .error "out of fuel"
  | _ + 1, [], ctr => .ok ([], ctr)
  | fuel + 1, .mk typeId entries :: rest, ctr => do
    let (es, ctr') ← cloneObjEntries fuel entries ctr
    let (tail, ctr'') ← cloneSubObjects fuel rest ctr'
    .ok (.mk typeId es :: tail, ctr'')
  termination_by structural fuel _ _ => fuel

def cloneObjEntries :
    Nat → List (Nat × Option SerializedInstance) → Nat →
    Except String (List (Nat × Option SerializedInstance) × Nat)
  | 0, _, _ => .error "out of fuel"
  | _ + 1, [], ctr => .ok ([], ctr)
  | fuel + 1, (k, e) :: rest, ctr => do
    let (e', ctr') ←
      match e with
      | none => pure (none, ctr)
      | some s => do
        let (s', c) ← cloneInstance fuel s ctr
        pure (some s', c)
    let (tail, ctr'') ← cloneObjEntries fuel rest ctr'
    .ok ((k, e') :: tail, ctr'')
  termination_by structural fuel _ _ => fuel

def cloneArrEntries :
    Nat → List (Nat × Option SerializedInstance) → Nat →
    Except String (List (Nat × Option SerializedInstance) × Nat)
  | 0, _, _ => .error "out of fuel"
  | _ + 1, [], ctr => .ok ([], ctr)
  | fuel + 1, (k, e) :: rest, ctr => do
    let (e', ctr') ←
      match e with
      | none =>
        Except.error "null array element dereferenced in SerializedArray::clone"
      | some s => do
        let (s', c) ← cloneInstance fuel s ctr
        pure (some s', c)
    let (tail, ctr'') ← cloneArrEntries fuel rest ctr'
    .ok ((k, e') :: tail, ctr'')
  termination_by structural fuel _ _ => fuel
end

/-! ## Diff generation (geBinaryDiff.cpp 33–154, 326–461)

`ObjectMap` keys diffs by the `modified`-side node identity.  The diff
generator threads the map together with the fresh-identity counter for
newly allocated diff nodes.  Dereferencing a null
`SPtr<SerializedInstance>` (undefined behavior in the C++) is an
`Except.error`. -/

structure DiffGenState where
  objectMap : List (Nat × SerializedInstance)
  nextNid : Nat

def objectMapFind (m : List (Nat × SerializedInstance)) (k : Nat) :
    Option SerializedInstance :=
  (m.find? (fun p => p.1 == k)).map Prod.snd

/-- The original-side entry lookup of `BinaryDiff::generateDiff`
(geBinaryDiff.cpp 352–360): null when there is no matching original
sub-object or no entry under the field id. -/
def orgEntryLookup (orgSubObject : Option SerializedSubObject)
    (fieldId : Nat) : Option SerializedInstance :=
  match orgSubObject with
  | none => none
  | some oso =>
    match oso.entries.find? (fun e => e.1 == fieldId) with
    | none => none
    | some e => e.2

mutual
/-- `IDiff::generateDiff(rtti, fieldType, orgData, newData, objectMap)`
— the per-field compare (geBinaryDiff.cpp 40–154).  Reflectable /
ReflectablePtr data recurses through the type's diff handler (the
default `BinaryDiff`), deduplicated through the object map keyed on the
`modified`-side node; Plain and DataBlock data compare size then
content, a difference producing a clone of the new value. -/
def generateDiffField (reg : TypeRegistry) :
    Nat → FieldKind → Option SerializedInstance →
    Option SerializedInstance → DiffGenState →
    Except String (Option SerializedInstance × DiffGenState)
  | 0, _, _, _, _ => .error "out of fuel"
  | fuel + 1, FieldKind.kReflectablePtr, orgData, newData, st =>
    match newData with
    | some (.obj nnid nsubs) =>
      match objectMapFind st.objectMap nnid with
      | some m => .ok (some m, st)
      | none =>
        match orgData with
        | some (.obj onid osubs) =>
          let orgRoot :=
            SerializedInstance.getRootTypeId (.obj onid osubs)
          let newRoot :=
            SerializedInstance.getRootTypeId (.obj nnid nsubs)
          let childRtti : Option RTTIType :=
            if orgRoot = newRoot then findRTTIType reg newRoot
            else none
          match childRtti with
          | some _ => do
            let (objectDiff, st) ← binaryGenerateDiff reg fuel
              (.obj onid osubs) (.obj nnid nsubs) st
            match objectDiff with
            | some d =>
              .ok (some d,
                { st with objectMap := st.objectMap ++ [(nnid, d)] })
            | none => .ok (none, st)
          | none => .ok (none, st)
        | _ => .error "null SerializedObject dereferenced in IDiff::generateDiff"
    | _ => .error "null SerializedObject dereferenced in IDiff::generateDiff"
  | fuel + 1, FieldKind.kReflectable, orgData, newData, st =>
    match newData with
    | some (.obj nnid nsubs) =>
      match objectMapFind st.objectMap nnid with
      | some m => .ok (some m, st)
      | none =>
        match orgData with
        | some (.obj onid osubs) =>
          let orgRoot :=
            SerializedInstance.getRootTypeId (.obj onid osubs)
          let newRoot :=
            SerializedInstance.getRootTypeId (.obj nnid nsubs)
          let childRtti : Option RTTIType :=
            if orgRoot = newRoot then findRTTIType reg newRoot
            else none
          match childRtti with
          | some _ => do
            let (objectDiff, st) ← binaryGenerateDiff reg fuel
              (.obj onid osubs) (.obj nnid nsubs) st
            match objectDiff with
            | some d =>
              .ok (some d,
                { st with objectMap := st.objectMap ++ [(nnid, d)] })
            | none => .ok (none, st)
          | none => .ok (none, st)
        | _ => .error "null SerializedObject dereferenced in IDiff::generateDiff"
    | _ => .error "null SerializedObject dereferenced in IDiff::generateDiff"
  | _ + 1, FieldKind.kPlain, orgData, newData, st =>
    match orgData, newData with
    | some (.field osize ovalue), some (.field nsize nvalue) =>
      if osize ≠ nsize ∨ ovalue.take nsize ≠ nvalue.take nsize then
        .ok (some (.field nsize nvalue), st)
      else
        .ok (none, st)
    | _, _ => .error "null SerializedField dereferenced in IDiff::generateDiff"
  | _ + 1, FieldKind.kDataBlock, orgData, newData, st =>
    match orgData, newData with
    | some (.dataBlock osize obytes), some (.dataBlock nsize nbytes) =>
      if osize ≠ nsize ∨ obytes.take nsize ≠ nbytes.take nsize then
        .ok (some (.dataBlock nsize (nbytes.take nsize)), st)
      else
        .ok (none, st)
    | _, _ => .error "null SerializedDataBlock dereferenced in IDiff::generateDiff"
  termination_by structural fuel _ _ _ _ => fuel

/-- `BinaryDiff::generateDiff(orgObj, newObj, objectMap)`
(geBinaryDiff.cpp 326–461): walk the new tree's sub-objects and
entries; the output diff object is allocated (with a fresh node
identity) only when at least one field is modified. -/
def binaryGenerateDiff (reg : TypeRegistry) :
    Nat → SerializedInstance → SerializedInstance → DiffGenState →
    Except String (Option SerializedInstance × DiffGenState)
  | 0, _, _, _ => .error "out of fuel"
  | fuel + 1, orgObj, newObj, st =>
    match orgObj, newObj with
    | .obj _ orgSubs, .obj _ newSubs => do
      let (outSubs, st) ← diffSubObjects reg fuel orgSubs newSubs st
      match outSubs with
      | [] => .ok (none, st)
      | subs =>
        .ok (some (.obj st.nextNid subs),
          { st with nextNid := st.nextNid + 1 })
    | _, _ => .error "BinaryDiff::generateDiff applied to non-object data"
  termination_by structural fuel _ _ _ => fuel

def diffSubObjects (reg : TypeRegistry) :
    Nat → List SerializedSubObject → List SerializedSubObject →
    DiffGenState →
    Except String (List SerializedSubObject × DiffGenState)
  | 0, _, _, _ => .error "out of fuel"
  | _ + 1, _, [], st => .ok ([], st)
  | fuel + 1, orgSubs, subObject :: rest, st =>
    match findRTTIType reg subObject.typeId with
    | none => diffSubObjects reg fuel orgSubs rest st
    | some rtti => do
      let orgSubObject :=
        orgSubs.find? (fun so => so.typeId == subObject.typeId)
      let (entriesDiff, st) ← diffEntries reg fuel rtti orgSubObject
        subObject.entries st
      let (tail, st) ← diffSubObjects reg fuel orgSubs rest st
      match entriesDiff with
      | [] => .ok (tail, st)
      | es => .ok (.mk rtti.typeId es :: tail, st)
  termination_by structural fuel _ _ _ => fuel

def diffEntries (reg : TypeRegistry) :
    Nat → RTTIType → Option SerializedSubObject →
    List (Nat × Option SerializedInstance) → DiffGenState →
    Except String
      (List (Nat × Option SerializedInstance) × DiffGenState)
  | 0, _, _, _, _ => .error "out of fuel"
  | _ + 1, _, _, [], st => .ok ([], st)
  | fuel + 1, rtti, orgSubObject, (fieldId, newEntryData) :: rest,
      st =>
    match rtti.findField fieldId with
    | none => diffEntries reg fuel rtti orgSubObject rest st
    | some genericField => do
      let orgEntryData : Option SerializedInstance :=
        orgEntryLookup orgSubObject fieldId
      let (modification, hasModification, st) ←
        if genericField.isVectorType then
          match newEntryData, orgEntryData with
          | some newArrData, some orgArrData =>
            match orgArrData, newArrData with
            | .arr _ orgEs, .arr nNum nEs => do
              let (collected, st) ← diffArrayEntries reg fuel
                genericField.fieldType orgEs nEs st
              match collected with
              | [] => pure ((none : Option SerializedInstance), false, st)
              | es => pure (some (.arr nNum es), true, st)
            | _, _ =>
              .error "non-array data in an array field of BinaryDiff::generateDiff"
          | none, _ =>
            pure (some (.arr 0 []), true, st)
          | some newArrData, none => do
            let (c, ctr) ← cloneInstance fuel newArrData st.nextNid
            pure (some c, true, { st with nextNid := ctr })
        else
          match newEntryData, orgEntryData with
          | some nd, some od => do
            let (m, st) ← generateDiffField reg fuel
              genericField.fieldType (some od) (some nd) st
            pure (m, m.isSome, st)
          | none, _ =>
            match genericField.fieldType with
            | FieldKind.kPlain =>
              pure (some (.field 0 []), true, st)
            | FieldKind.kDataBlock =>
              pure (some (.dataBlock 0 []), true, st)
            | _ => pure ((none : Option SerializedInstance), true, st)
          | some nd, none => do
            let (c, ctr) ← cloneInstance fuel nd st.nextNid
            pure (some c, true, { st with nextNid := ctr })
      let (tail, st) ← diffEntries reg fuel rtti orgSubObject rest st
      if hasModification then
        .ok ((fieldId, modification) :: tail, st)
      else
        .ok (tail, st)
  termination_by structural fuel _ _ _ _ => fuel

def diffArrayEntries (reg : TypeRegistry) :
    Nat → FieldKind → List (Nat × Option SerializedInstance) →
    List (Nat × Option SerializedInstance) → DiffGenState →
    Except String
      (List (Nat × Option SerializedInstance) × DiffGenState)
  | 0, _, _, _, _ => .error "out of fuel"
  | _ + 1, _, _, [], st => .ok ([], st)
  | fuel + 1, fieldType, orgEs, (idx, elemOpt) :: rest, st => do
    let (arrayModification, st) ←
      match orgEs.find? (fun e => e.1 == idx) with
      | none =>
        match elemOpt with
        | none =>
          Except.error "null array element dereferenced in BinaryDiff::generateDiff"
        | some e => do
          let (c, ctr) ← cloneInstance fuel e st.nextNid
          pure (some c, { st with nextNid := ctr })
      | some oe =>
        generateDiffField reg fuel fieldType oe.2 elemOpt st
    let (tail, st) ← diffArrayEntries reg fuel fieldType orgEs rest st
    match arrayModification with
    | none => .ok (tail, st)
    | some m => .ok ((idx, some m) :: tail, st)
  termination_by structural fuel _ _ _ _ => fuel
end

/-- `IDiff::generateDiff(orgObj, newObj)` — the public two-argument
overload: runs the diff with a fresh `ObjectMap`.  `nextNid` seeds the
identities of newly allocated diff nodes. -/
def generateDiff (reg : TypeRegistry) (fuel : Nat)
    (orgObj newObj : SerializedInstance) (nextNid : Nat) :
    Except String (Option SerializedInstance × DiffGenState) :=
  binaryGenerateDiff reg fuel orgObj newObj ⟨[], nextNid⟩

/-! Well-formed serialized trees: the shape discipline that
`IntermediateSerializer::encode` guarantees for every tree it produces
— map keys unique (they come from `std::map`), every entry of a known
field non-null and of the shape its field kind dictates.  On such trees
the self-diff is empty; outside it (a null entry) it is not. -/

def natMem (x : Nat) : List Nat → Bool
  | [] => false
  | y :: ys => x == y || natMem x ys

def nodupNat : List Nat → Bool
  | [] => true
  | x :: xs => !natMem x xs && nodupNat xs

mutual
def wfInstance (reg : TypeRegistry) : Nat → SerializedInstance → Bool
  | 0, _ => false
  | fuel + 1, .obj _ subs =>
    nodupNat (subs.map SerializedSubObject.typeId) &&
      wfSubObjects reg fuel subs
  | _ + 1, _ => false
  termination_by structural fuel _ => fuel

def wfSubObjects (reg : TypeRegistry) :
    Nat → List SerializedSubObject → Bool
  | 0, _ => false
  | _ + 1, [] => true
  | fuel + 1, so :: rest =>
    (match findRTTIType reg so.typeId with
     | none => true
     | some rtti =>
       nodupNat (so.entries.map Prod.fst) &&
         wfEntries reg fuel rtti so.entries) &&
      wfSubObjects reg fuel rest
  termination_by structural fuel _ => fuel

def wfEntries (reg : TypeRegistry) :
    Nat → RTTIType → List (Nat × Option SerializedInstance) → Bool
  | 0, _, _ => false
  | _ + 1, _, [] => true
  | fuel + 1, rtti, (fid, dataOpt) :: rest =>
    (match rtti.findField fid with
     | none => true
     | some f =>
       match dataOpt with
       | none => false
       | some data =>
         if f.isVectorType then
           match data with
           | .arr _ es =>
             nodupNat (es.map Prod.fst) &&
               wfArrElems reg fuel f.fieldType es
           | _ => false
         else wfFieldData reg fuel f.fieldType data) &&
      wfEntries reg fuel rtti rest
  termination_by structural fuel _ _ => fuel

def wfArrElems (reg : TypeRegistry) :
    Nat → FieldKind → List (Nat × Option SerializedInstance) → Bool
  | 0, _, _ => false
  | _ + 1, _, [] => true
  | fuel + 1, ft, (_, elemOpt) :: rest =>
    (match elemOpt with
     | none => false
     | some e => wfFieldData reg fuel ft e) &&
      wfArrElems reg fuel ft rest
  termination_by structural fuel _ _ => fuel

def wfFieldData (reg : TypeRegistry) :
    Nat → FieldKind → SerializedInstance → Bool
  | 0, _, _ => false
  | fuel + 1, ft, data =>
    match ft, data with
    | .kPlain, .field _ _ => true
    | .kDataBlock, .dataBlock _ _ => true
    | .kReflectable, .obj nid subs => wfInstance reg fuel (.obj nid subs)
    | .kReflectablePtr, .obj nid subs => wfInstance reg fuel (.obj nid subs)
    | _, _ => false
  termination_by structural fuel _ _ => fuel
end

lemma natMem_iff {x : Nat} : ∀ {l : List Nat}, natMem x l = true ↔ x ∈ l
  | [] => by simp [natMem]
  | y :: ys => by
    simp [natMem, Nat.beq_eq, natMem_iff (l := ys), List.mem_cons]

lemma find_eq_of_nodup_keys {α : Type} (key : α → Nat) :
    ∀ (l : List α) (a : α), nodupNat (l.map key) = true → a ∈ l →
      l.find? (fun x => key x == key a) = some a
  | [], a => by simp
  | h :: t, a => by
    intro hnd hmem
    simp only [List.map, nodupNat, Bool.and_eq_true, Bool.not_eq_true'] at hnd
    by_cases hk : key h = key a
    · have ha : a = h := by
        rcases List.mem_cons.mp hmem with rfl | hat
        · rfl
        · exfalso
          have : natMem (key h) (t.map key) = true := by
            rw [natMem_iff, hk]
            exact List.mem_map_of_mem key hat
          rw [this] at hnd
          exact Bool.noConfusion hnd.1
      subst ha
      simp [List.find?]
    · have hat : a ∈ t := by
        rcases List.mem_cons.mp hmem with rfl | hat
        · exact absurd rfl hk
        · exact hat
      have : (key h == key a) = false := by
        simp [Nat.beq_eq]; exact hk
      simp only [List.find?, this]
      exact find_eq_of_nodup_keys key t a hnd.2 hat

/-! One-step unfolding equations for the diff and well-formedness
functions, stated with the bodies verbatim; used to reason about the
functions at symbolic fuel. -/

lemma generateDiffField_reflectable_eq (reg : TypeRegistry) (fuel : Nat)
    (orgData : Option SerializedInstance)
    (nnid : Nat) (nsubs : List SerializedSubObject) (st : DiffGenState) :
    generateDiffField reg (fuel + 1) FieldKind.kReflectable
      orgData (some (.obj nnid nsubs)) st =
      match objectMapFind st.objectMap nnid with
      | some m => .ok (some m, st)
      | none =>
        match orgData with
        | some (.obj onid osubs) =>
          let orgRoot :=
            SerializedInstance.getRootTypeId (.obj onid osubs)
          let newRoot :=
            SerializedInstance.getRootTypeId (.obj nnid nsubs)
          let childRtti : Option RTTIType :=
            if orgRoot = newRoot then findRTTIType reg newRoot
            else none
          match childRtti with
          | some _ => do
            let (objectDiff, st) ← binaryGenerateDiff reg fuel
              (.obj onid osubs) (.obj nnid nsubs) st
            match objectDiff with
            | some d =>
              .ok (some d,
                { st with objectMap := st.objectMap ++ [(nnid, d)] })
            | none => .ok (none, st)
          | none => .ok (none, st)
        | _ => .error "null SerializedObject dereferenced in IDiff::generateDiff" := by with_unfolding_all rfl

lemma generateDiffField_reflectablePtr_eq (reg : TypeRegistry) (fuel : Nat)
    (orgData : Option SerializedInstance)
    (nnid : Nat) (nsubs : List SerializedSubObject) (st : DiffGenState) :
    generateDiffField reg (fuel + 1) FieldKind.kReflectablePtr
      orgData (some (.obj nnid nsubs)) st =
      generateDiffField reg (fuel + 1) FieldKind.kReflectable
        orgData (some (.obj nnid nsubs)) st := by with_unfolding_all rfl

lemma binaryGenerateDiff_obj_eq (reg : TypeRegistry) (fuel : Nat)
    (onid nnid : Nat) (orgSubs newSubs : List SerializedSubObject)
    (st : DiffGenState) :
    binaryGenerateDiff reg (fuel + 1) (.obj onid orgSubs)
      (.obj nnid newSubs) st = (do
      let (outSubs, st) ← diffSubObjects reg fuel orgSubs newSubs st
      match outSubs with
      | [] => .ok (none, st)
      | subs =>
        .ok (some (.obj st.nextNid subs),
          { st with nextNid := st.nextNid + 1 })) := by with_unfolding_all rfl

lemma diffSubObjects_nil_eq (reg : TypeRegistry) (fuel : Nat)
    (orgSubs : List SerializedSubObject) (st : DiffGenState) :
    diffSubObjects reg (fuel + 1) orgSubs [] st = .ok ([], st) := by with_unfolding_all rfl

lemma diffSubObjects_cons_eq (reg : TypeRegistry) (fuel : Nat)
    (orgSubs : List SerializedSubObject) (subObject : SerializedSubObject)
    (rest : List SerializedSubObject) (st : DiffGenState) :
    diffSubObjects reg (fuel + 1) orgSubs (subObject :: rest) st =
      (match findRTTIType reg subObject.typeId with
      | none => diffSubObjects reg fuel orgSubs rest st
      | some rtti => do
        let orgSubObject :=
          orgSubs.find? (fun so => so.typeId == subObject.typeId)
        let (entriesDiff, st) ← diffEntries reg fuel rtti orgSubObject
          subObject.entries st
        let (tail, st) ← diffSubObjects reg fuel orgSubs rest st
        match entriesDiff with
        | [] => .ok (tail, st)
        | es => .ok (.mk rtti.typeId es :: tail, st)) := by with_unfolding_all rfl

lemma diffEntries_nil_eq (reg : TypeRegistry) (fuel : Nat)
    (rtti : RTTIType) (orgSubObject : Option SerializedSubObject)
    (st : DiffGenState) :
    diffEntries reg (fuel + 1) rtti orgSubObject [] st = .ok ([], st) := by with_unfolding_all rfl

lemma diffEntries_cons_eq (reg : TypeRegistry) (fuel : Nat)
    (rtti : RTTIType) (orgSubObject : Option SerializedSubObject)
    (fieldId : Nat) (newEntryData : Option SerializedInstance)
    (rest : List (Nat × Option SerializedInstance)) (st : DiffGenState) :
    diffEntries reg (fuel + 1) rtti orgSubObject
      ((fieldId, newEntryData) :: rest) st =
      (match rtti.findField fieldId with
      | none => diffEntries reg fuel rtti orgSubObject rest st
      | some genericField => do
        let orgEntryData : Option SerializedInstance :=
          orgEntryLookup orgSubObject fieldId
        let (modification, hasModification, st) ←
          if genericField.isVectorType then
            match newEntryData, orgEntryData with
            | some newArrData, some orgArrData =>
              match orgArrData, newArrData with
              | .arr _ orgEs, .arr nNum nEs => do
                let (collected, st) ← diffArrayEntries reg fuel
                  genericField.fieldType orgEs nEs st
                match collected with
                | [] => pure ((none : Option SerializedInstance), false, st)
                | es => pure (some (.arr nNum es), true, st)
              | _, _ =>
                .error "non-array data in an array field of BinaryDiff::generateDiff"
            | none, _ =>
              pure (some (.arr 0 []), true, st)
            | some newArrData, none => do
              let (c, ctr) ← cloneInstance fuel newArrData st.nextNid
              pure (some c, true, { st with nextNid := ctr })
          else
            match newEntryData, orgEntryData with
            | some nd, some od => do
              let (m, st) ← generateDiffField reg fuel
                genericField.fieldType (some od) (some nd) st
              pure (m, m.isSome, st)
            | none, _ =>
              match genericField.fieldType with
              | FieldKind.kPlain =>
                pure (some (.field 0 []), true, st)
              | FieldKind.kDataBlock =>
                pure (some (.dataBlock 0 []), true, st)
              | _ => pure ((none : Option SerializedInstance), true, st)
            | some nd, none => do
              let (c, ctr) ← cloneInstance fuel nd st.nextNid
              pure (some c, true, { st with nextNid := ctr })
        let (tail, st) ← diffEntries reg fuel rtti orgSubObject rest st
        if hasModification then
          .ok ((fieldId, modification) :: tail, st)
        else
          .ok (tail, st)) := by with_unfolding_all rfl

lemma diffArrayEntries_nil_eq (reg : TypeRegistry) (fuel : Nat)
    (fieldType : FieldKind)
    (orgEs : List (Nat × Option SerializedInstance)) (st : DiffGenState) :
    diffArrayEntries reg (fuel + 1) fieldType orgEs [] st = .ok ([], st) := by with_unfolding_all rfl

lemma diffArrayEntries_cons_eq (reg : TypeRegistry) (fuel : Nat)
    (fieldType : FieldKind)
    (orgEs : List (Nat × Option SerializedInstance))
    (idx : Nat) (elemOpt : Option SerializedInstance)
    (rest : List (Nat × Option SerializedInstance)) (st : DiffGenState) :
    diffArrayEntries reg (fuel + 1) fieldType orgEs
      ((idx, elemOpt) :: rest) st = (do
      let (arrayModification, st) ←
        match orgEs.find? (fun e => e.1 == idx) with
        | none =>
          match elemOpt with
          | none =>
            Except.error "null array element dereferenced in BinaryDiff::generateDiff"
          | some e => do
            let (c, ctr) ← cloneInstance fuel e st.nextNid
            pure (some c, { st with nextNid := ctr })
        | some oe =>
          generateDiffField reg fuel fieldType oe.2 elemOpt st
      let (tail, st) ← diffArrayEntries reg fuel fieldType orgEs rest st
      match arrayModification with
      | none => .ok (tail, st)
      | some m => .ok ((idx, some m) :: tail, st)) := by with_unfolding_all rfl

lemma wfInstance_succ_eq (reg : TypeRegistry) (fuel : Nat)
    (tree : SerializedInstance) :
    wfInstance reg (fuel + 1) tree =
      match tree with
      | .obj _ subs =>
        nodupNat (subs.map SerializedSubObject.typeId) &&
          wfSubObjects reg fuel subs
      | _ => false := by
  cases tree <;> with_unfolding_all rfl

lemma wfSubObjects_cons_eq (reg : TypeRegistry) (fuel : Nat)
    (so : SerializedSubObject) (rest : List SerializedSubObject) :
    wfSubObjects reg (fuel + 1) (so :: rest) =
      ((match findRTTIType reg so.typeId with
       | none => true
       | some rtti =>
         nodupNat (so.entries.map Prod.fst) &&
           wfEntries reg fuel rtti so.entries) &&
        wfSubObjects reg fuel rest) := by with_unfolding_all rfl

lemma wfEntries_cons_eq (reg : TypeRegistry) (fuel : Nat)
    (rtti : RTTIType) (fid : Nat) (dataOpt : Option SerializedInstance)
    (rest : List (Nat × Option SerializedInstance)) :
    wfEntries reg (fuel + 1) rtti ((fid, dataOpt) :: rest) =
      ((match rtti.findField fid with
       | none => true
       | some f =>
         match dataOpt with
         | none => false
         | some data =>
           if f.isVectorType then
             match data with
             | .arr _ es =>
               nodupNat (es.map Prod.fst) &&
                 wfArrElems reg fuel f.fieldType es
             | _ => false
           else wfFieldData reg fuel f.fieldType data) &&
        wfEntries reg fuel rtti rest) := by with_unfolding_all rfl

lemma wfArrElems_cons_eq (reg : TypeRegistry) (fuel : Nat)
    (ft : FieldKind) (idx : Nat) (elemOpt : Option SerializedInstance)
    (rest : List (Nat × Option SerializedInstance)) :
    wfArrElems reg (fuel + 1) ft ((idx, elemOpt) :: rest) =
      ((match elemOpt with
       | none => false
       | some e => wfFieldData reg fuel ft e) &&
        wfArrElems reg fuel ft rest) := by with_unfolding_all rfl

lemma wfFieldData_succ_eq (reg : TypeRegistry) (fuel : Nat)
    (ft : FieldKind) (data : SerializedInstance) :
    wfFieldData reg (fuel + 1) ft data =
      match ft, data with
      | .kPlain, .field _ _ => true
      | .kDataBlock, .dataBlock _ _ => true
      | .kReflectable, .obj nid subs => wfInstance reg fuel (.obj nid subs)
      | .kReflectablePtr, .obj nid subs => wfInstance reg fuel (.obj nid subs)
      | _, _ => false := by
  cases ft <;> cases data <;> with_unfolding_all rfl

lemma except_bind_ok {A B : Type} (a : A) (f : A → Except String B) :
    ((Except.ok a : Except String A) >>= f) = f a := rfl

lemma orgEntryLookup_eq_of_find (oso : SerializedSubObject) (fid : Nat)
    (e : Nat × Option SerializedInstance)
    (hfind : oso.entries.find? (fun x => x.1 == fid) = some e) :
    orgEntryLookup (some oso) fid = e.2 := by
  simp only [orgEntryLookup, hfind]

/-- Self-diff is empty on well-formed trees: mutual induction over fuel
covering the five functions of the diff generator.  The object map
stays empty throughout because no sub-diff is ever produced. -/
lemma diff_self_aux (reg : TypeRegistry) : ∀ fuel : Nat,
    (∀ ft data st, st.objectMap = [] →
      wfFieldData reg fuel ft data = true →
      generateDiffField reg fuel ft (some data) (some data) st =
        .ok (none, st)) ∧
    (∀ tree st, st.objectMap = [] → wfInstance reg fuel tree = true →
      binaryGenerateDiff reg fuel tree tree st = .ok (none, st)) ∧
    (∀ orgSubs newSubs st, st.objectMap = [] →
      nodupNat (orgSubs.map SerializedSubObject.typeId) = true →
      (∀ so ∈ newSubs, so ∈ orgSubs) →
      wfSubObjects reg fuel newSubs = true →
      diffSubObjects reg fuel orgSubs newSubs st = .ok ([], st)) ∧
    (∀ rtti oso newEntries st, st.objectMap = [] →
      nodupNat (oso.entries.map Prod.fst) = true →
      (∀ e ∈ newEntries, e ∈ oso.entries) →
      wfEntries reg fuel rtti newEntries = true →
      diffEntries reg fuel rtti (some oso) newEntries st = .ok ([], st)) ∧
    (∀ ft orgEs newEs st, st.objectMap = [] →
      nodupNat (orgEs.map Prod.fst) = true →
      (∀ e ∈ newEs, e ∈ orgEs) →
      wfArrElems reg fuel ft newEs = true →
      diffArrayEntries reg fuel ft orgEs newEs st = .ok ([], st)) := by
  intro fuel
  induction fuel with
  | zero =>
    refine ⟨?_, ?_, ?_, ?_, ?_⟩ <;> intros <;>
      simp_all [wfFieldData, wfInstance, wfSubObjects, wfEntries,
        wfArrElems]
  | succ fuel ih =>
    obtain ⟨ihF, ihB, ihS, ihE, ihA⟩ := ih
    have hF : ∀ ft data st, st.objectMap = [] →
        wfFieldData reg (fuel + 1) ft data = true →
        generateDiffField reg (fuel + 1) ft (some data) (some data) st =
          .ok (none, st) := by
      intro ft data st hmap hwf
      rw [wfFieldData_succ_eq] at hwf
      have hfind0 : objectMapFind st.objectMap = fun _ => none := by
        funext k; rw [hmap]; rfl
      cases ft <;> cases data <;> try exact Bool.noConfusion hwf
      · -- kPlain, .field
        simp [generateDiffField]
      · -- kReflectable, .obj
        rename_i nid subs
        rw [generateDiffField_reflectable_eq, hfind0]
        simp only []
        rw [ihB _ st hmap hwf]
        cases findRTTIType reg
            (SerializedInstance.getRootTypeId (.obj nid subs)) <;>
          simp [except_bind_ok]
      · -- kReflectablePtr, .obj
        rename_i nid subs
        rw [generateDiffField_reflectablePtr_eq,
          generateDiffField_reflectable_eq, hfind0]
        simp only []
        rw [ihB _ st hmap hwf]
        cases findRTTIType reg
            (SerializedInstance.getRootTypeId (.obj nid subs)) <;>
          simp [except_bind_ok]
      · -- kDataBlock, .dataBlock
        simp [generateDiffField]
    have hA : ∀ ft orgEs newEs st, st.objectMap = [] →
        nodupNat (orgEs.map Prod.fst) = true →
        (∀ e ∈ newEs, e ∈ orgEs) →
        wfArrElems reg (fuel + 1) ft newEs = true →
        diffArrayEntries reg (fuel + 1) ft orgEs newEs st =
          .ok ([], st) := by
      intro ft orgEs newEs st hmap hnd hsub hwf
      cases newEs with
      | nil => exact diffArrayEntries_nil_eq reg fuel ft orgEs st
      | cons e rest =>
        obtain ⟨idx, elemOpt⟩ := e
        rw [wfArrElems_cons_eq, Bool.and_eq_true] at hwf
        obtain ⟨hwfe, hwfrest⟩ := hwf
        have hfind : orgEs.find? (fun e => e.1 == idx) =
            some (idx, elemOpt) :=
          find_eq_of_nodup_keys Prod.fst orgEs (idx, elemOpt)
            hnd (hsub _ (List.mem_cons_self _ _))
        cases elemOpt with
        | none => exact Bool.noConfusion hwfe
        | some e =>
          rw [diffArrayEntries_cons_eq, hfind]
          simp only []
          rw [ihF ft e st hmap hwfe, except_bind_ok]
          simp only []
          rw [ihA ft orgEs rest st hmap hnd
            (fun x hx => hsub x (List.mem_cons_of_mem _ hx)) hwfrest,
            except_bind_ok]
    have hE : ∀ rtti oso newEntries st, st.objectMap = [] →
        nodupNat (oso.entries.map Prod.fst) = true →
        (∀ e ∈ newEntries, e ∈ oso.entries) →
        wfEntries reg (fuel + 1) rtti newEntries = true →
        diffEntries reg (fuel + 1) rtti (some oso) newEntries st =
          .ok ([], st) := by
      intro rtti oso newEntries st hmap hnd hsub hwf
      cases newEntries with
      | nil => exact diffEntries_nil_eq reg fuel rtti (some oso) st
      | cons e rest =>
        obtain ⟨fid, dataOpt⟩ := e
        rw [wfEntries_cons_eq, Bool.and_eq_true] at hwf
        obtain ⟨hwfhead, hwfrest⟩ := hwf
        have hrest := ihE rtti oso rest st hmap hnd
          (fun x hx => hsub x (List.mem_cons_of_mem _ hx)) hwfrest
        rw [diffEntries_cons_eq]
        split
        · exact hrest
        · rename_i genericField heq
          rw [heq] at hwfhead
          cases dataOpt with
          | none => exact Bool.noConfusion hwfhead
          | some data =>
            have hfind : oso.entries.find? (fun x => x.1 == fid) =
                some (fid, some data) :=
              find_eq_of_nodup_keys Prod.fst oso.entries (fid, some data)
                hnd (hsub _ (List.mem_cons_self _ _))
            have horg : orgEntryLookup (some oso) fid = some data :=
              orgEntryLookup_eq_of_find _ _ _ hfind
            rw [horg]
            replace hwfhead : (if genericField.isVectorType then
                match data with
                | .arr _ es =>
                  nodupNat (es.map Prod.fst) &&
                    wfArrElems reg fuel genericField.fieldType es
                | _ => false
              else wfFieldData reg fuel genericField.fieldType data) =
                true := hwfhead
            cases hgv : genericField.isVectorType with
            | false =>
              rw [hgv] at hwfhead
              simp only [Bool.false_eq_true, if_false] at hwfhead
              simp only [Bool.false_eq_true, if_false]
              simp only [ihF genericField.fieldType data st hmap
                hwfhead, hrest, except_bind_ok, pure_bind,
                Option.isSome_none, if_false]
              rfl
            | true =>
              rw [hgv] at hwfhead
              simp only [if_true] at hwfhead
              cases data <;> try exact Bool.noConfusion hwfhead
              rename_i nNum nEs
              replace hwfhead : (nodupNat (nEs.map Prod.fst) &&
                  wfArrElems reg fuel genericField.fieldType nEs) =
                  true := hwfhead
              rw [Bool.and_eq_true] at hwfhead
              obtain ⟨hndEs, hwfEs⟩ := hwfhead
              simp only [if_true]
              simp only [ihA genericField.fieldType nEs nEs st hmap
                hndEs (fun x hx => hx) hwfEs, hrest, except_bind_ok,
                pure_bind, Bool.false_eq_true, if_false]
    have hS : ∀ orgSubs newSubs st, st.objectMap = [] →
        nodupNat (orgSubs.map SerializedSubObject.typeId) = true →
        (∀ so ∈ newSubs, so ∈ orgSubs) →
        wfSubObjects reg (fuel + 1) newSubs = true →
        diffSubObjects reg (fuel + 1) orgSubs newSubs st =
          .ok ([], st) := by
      intro orgSubs newSubs st hmap hnd hsub hwf
      cases newSubs with
      | nil => exact diffSubObjects_nil_eq reg fuel orgSubs st
      | cons so rest =>
        rw [wfSubObjects_cons_eq, Bool.and_eq_true] at hwf
        obtain ⟨hwfso, hwfrest⟩ := hwf
        have hrest := ihS orgSubs rest st hmap hnd
          (fun x hx => hsub x (List.mem_cons_of_mem _ hx)) hwfrest
        rw [diffSubObjects_cons_eq]
        split
        · exact hrest
        · rename_i rtti heq
          rw [heq] at hwfso
          replace hwfso : (nodupNat (so.entries.map Prod.fst) &&
              wfEntries reg fuel rtti so.entries) = true := hwfso
          rw [Bool.and_eq_true] at hwfso
          obtain ⟨hndE, hwfE⟩ := hwfso
          have hfind : orgSubs.find?
              (fun so2 => so2.typeId == so.typeId) = some so :=
            find_eq_of_nodup_keys SerializedSubObject.typeId orgSubs so
              hnd (hsub _ (List.mem_cons_self _ _))
          rw [hfind]
          simp only [ihE rtti so so.entries st hmap hndE
            (fun x hx => hx) hwfE, hrest, except_bind_ok, pure_bind]
    have hB : ∀ tree st, st.objectMap = [] →
        wfInstance reg (fuel + 1) tree = true →
        binaryGenerateDiff reg (fuel + 1) tree tree st =
          .ok (none, st) := by
      intro tree st hmap hwf
      rw [wfInstance_succ_eq] at hwf
      cases tree <;> try exact Bool.noConfusion hwf
      rename_i nid subs
      replace hwf : (nodupNat (subs.map SerializedSubObject.typeId) &&
          wfSubObjects reg fuel subs) = true := hwf
      rw [Bool.and_eq_true] at hwf
      obtain ⟨hnd, hwfsubs⟩ := hwf
      rw [binaryGenerateDiff_obj_eq]
      rw [ihS subs subs st hmap hnd (fun x hx => hx) hwfsubs,
        except_bind_ok]
    exact ⟨hF, hB, hS, hE, hA⟩

/-! Field-identical serialized trees: equal in every field value, size,
array element and sub-object type id, but with arbitrary (e.g. freshly
allocated) node identities — the serialized form of the same live data
produced by two independent `IntermediateSerializer::encode` runs. -/

mutual
inductive FieldIdentical : SerializedInstance → SerializedInstance → Prop where
  | obj {onid nnid : Nat} {osubs nsubs : List SerializedSubObject} :
      FieldIdenticalSubs osubs nsubs →
      FieldIdentical (.obj onid osubs) (.obj nnid nsubs)

inductive FieldIdenticalSubs :
    List SerializedSubObject → List SerializedSubObject → Prop where
  | nil : FieldIdenticalSubs [] []
  | cons {tid : Nat} {oes nes : List (Nat × Option SerializedInstance)}
      {orest nrest : List SerializedSubObject} :
      FieldIdenticalEntries oes nes →
      FieldIdenticalSubs orest nrest →
      FieldIdenticalSubs (.mk tid oes :: orest) (.mk tid nes :: nrest)

inductive FieldIdenticalEntries :
    List (Nat × Option SerializedInstance) →
    List (Nat × Option SerializedInstance) → Prop where
  | nil : FieldIdenticalEntries [] []
  | cons {k : Nat} {oe ne : Option SerializedInstance}
      {orest nrest : List (Nat × Option SerializedInstance)} :
      FieldIdenticalOpt oe ne →
      FieldIdenticalEntries orest nrest →
      FieldIdenticalEntries ((k, oe) :: orest) ((k, ne) :: nrest)

inductive FieldIdenticalOpt :
    Option SerializedInstance → Option SerializedInstance → Prop where
  | none : FieldIdenticalOpt none none
  | some {od nd : SerializedInstance} : FieldIdenticalData od nd →
      FieldIdenticalOpt (some od) (some nd)

inductive FieldIdenticalData : SerializedInstance → SerializedInstance → Prop where
  | field {size : Nat} {value : List Nat} :
      FieldIdenticalData (.field size value) (.field size value)
  | dataBlock {size : Nat} {bytes : List Nat} :
      FieldIdenticalData (.dataBlock size bytes) (.dataBlock size bytes)
  | arr {num : Nat} {oes nes : List (Nat × Option SerializedInstance)} :
      FieldIdenticalEntries oes nes →
      FieldIdenticalData (.arr num oes) (.arr num nes)
  | obj {onid nnid : Nat} {osubs nsubs : List SerializedSubObject} :
      FieldIdenticalSubs osubs nsubs →
      FieldIdenticalData (.obj onid osubs) (.obj nnid nsubs)
end

lemma fieldIdenticalEntries_keys :
    ∀ (oes nes : List (Nat × Option SerializedInstance)),
      FieldIdenticalEntries oes nes →
      oes.map Prod.fst = nes.map Prod.fst
  | [], nes, h => by cases h; rfl
  | (k, oe) :: orest, nes, h => by
    cases h with
    | cons he hrest =>
      simp only [List.map]
      rw [fieldIdenticalEntries_keys orest _ hrest]

lemma fieldIdenticalEntries_mem :
    ∀ (oes nes : List (Nat × Option SerializedInstance)),
      FieldIdenticalEntries oes nes →
      ∀ e ∈ nes, ∃ od, (e.1, od) ∈ oes ∧ FieldIdenticalOpt od e.2
  | [], nes, h => by cases h; intro e hm; cases hm
  | (k, oe) :: orest, nes, h => by
    cases h with
    | cons he hrest =>
      intro e hm
      rcases List.mem_cons.mp hm with rfl | hm2
      · exact ⟨oe, List.mem_cons_self _ _, he⟩
      · obtain ⟨od, hmo, ho⟩ :=
          fieldIdenticalEntries_mem orest _ hrest e hm2
        exact ⟨od, List.mem_cons_of_mem _ hmo, ho⟩

lemma fieldIdenticalSubs_keys :
    ∀ (osubs nsubs : List SerializedSubObject),
      FieldIdenticalSubs osubs nsubs →
      osubs.map SerializedSubObject.typeId =
        nsubs.map SerializedSubObject.typeId
  | [], nsubs, h => by cases h; rfl
  | so :: orest, nsubs, h => by
    cases h with
    | cons he hrest =>
      simp only [List.map, SerializedSubObject.typeId]
      rw [fieldIdenticalSubs_keys orest _ hrest]

lemma fieldIdenticalSubs_mem :
    ∀ (osubs nsubs : List SerializedSubObject),
      FieldIdenticalSubs osubs nsubs →
      ∀ nso ∈ nsubs, ∃ oso ∈ osubs, oso.typeId = nso.typeId ∧
        FieldIdenticalEntries oso.entries nso.entries
  | [], nsubs, h => by cases h; intro nso hm; cases hm
  | so :: orest, nsubs, h => by
    cases h with
    | cons he hrest =>
      intro nso hm
      rcases List.mem_cons.mp hm with rfl | hm2
      · exact ⟨_, List.mem_cons_self _ _, rfl, he⟩
      · obtain ⟨oso, hmo, hq, hent⟩ :=
          fieldIdenticalSubs_mem orest _ hrest nso hm2
        exact ⟨oso, List.mem_cons_of_mem _ hmo, hq, hent⟩

lemma fieldIdenticalSubs_root (onid nnid : Nat) :
    ∀ (osubs nsubs : List SerializedSubObject),
      FieldIdenticalSubs osubs nsubs →
      SerializedInstance.getRootTypeId (.obj onid osubs) =
        SerializedInstance.getRootTypeId (.obj nnid nsubs)
  | [], nsubs, h => by cases h; rfl
  | so :: orest, nsubs, h => by cases h with | cons he hrest => rfl

/-- The per-entry conjunct of `wfEntries` (the shape check one known
field's entry data must pass), factored out for reuse. -/
def wfEntryHead (reg : TypeRegistry) (fuel : Nat) (f : RTTIField)
    (data : SerializedInstance) : Bool :=
  if f.isVectorType then
    match data with
    | .arr _ es =>
      nodupNat (es.map Prod.fst) &&
        wfArrElems reg fuel f.fieldType es
    | _ => false
  else wfFieldData reg fuel f.fieldType data

lemma wfEntryHead_eq (reg : TypeRegistry) (fuel : Nat) (f : RTTIField)
    (data : SerializedInstance) :
    wfEntryHead reg fuel f data =
      (if f.isVectorType then
        match data with
        | .arr _ es =>
          nodupNat (es.map Prod.fst) &&
            wfArrElems reg fuel f.fieldType es
        | _ => false
      else wfFieldData reg fuel f.fieldType data) := by
  with_unfolding_all rfl

/-- Diff of field-identical trees is empty on well-formed trees: the
generalization of the self-diff induction to an original tree that is
field-identical to the new tree but carries arbitrary node
identities. -/
lemma diff_identical_aux (reg : TypeRegistry) : ∀ fuel : Nat,
    (∀ ft od nd st, st.objectMap = [] →
      wfFieldData reg fuel ft nd = true →
      FieldIdenticalData od nd →
      generateDiffField reg fuel ft (some od) (some nd) st =
        .ok (none, st)) ∧
    (∀ org new st, st.objectMap = [] →
      wfInstance reg fuel new = true →
      FieldIdentical org new →
      binaryGenerateDiff reg fuel org new st = .ok (none, st)) ∧
    (∀ orgSubs newSubs st, st.objectMap = [] →
      nodupNat (orgSubs.map SerializedSubObject.typeId) = true →
      (∀ nso ∈ newSubs, ∃ oso ∈ orgSubs, oso.typeId = nso.typeId ∧
        FieldIdenticalEntries oso.entries nso.entries) →
      wfSubObjects reg fuel newSubs = true →
      diffSubObjects reg fuel orgSubs newSubs st = .ok ([], st)) ∧
    (∀ rtti oso newEntries st, st.objectMap = [] →
      nodupNat (oso.entries.map Prod.fst) = true →
      (∀ e ∈ newEntries, ∃ od, (e.1, od) ∈ oso.entries ∧
        FieldIdenticalOpt od e.2) →
      wfEntries reg fuel rtti newEntries = true →
      diffEntries reg fuel rtti (some oso) newEntries st = .ok ([], st)) ∧
    (∀ ft orgEs newEs st, st.objectMap = [] →
      nodupNat (orgEs.map Prod.fst) = true →
      (∀ e ∈ newEs, ∃ od, (e.1, od) ∈ orgEs ∧
        FieldIdenticalOpt od e.2) →
      wfArrElems reg fuel ft newEs = true →
      diffArrayEntries reg fuel ft orgEs newEs st = .ok ([], st)) := by
  intro fuel
  induction fuel with
  | zero =>
    refine ⟨?_, ?_, ?_, ?_, ?_⟩ <;> intros <;>
      simp_all [wfFieldData, wfInstance, wfSubObjects, wfEntries,
        wfArrElems]
  | succ fuel ih =>
    obtain ⟨ihF, ihB, ihS, ihE, ihA⟩ := ih
    have hF : ∀ ft od nd st, st.objectMap = [] →
        wfFieldData reg (fuel + 1) ft nd = true →
        FieldIdenticalData od nd →
        generateDiffField reg (fuel + 1) ft (some od) (some nd) st =
          .ok (none, st) := by
      intro ft od nd st hmap hwf hfi
      rw [wfFieldData_succ_eq] at hwf
      have hfind0 : objectMapFind st.objectMap = fun _ => none := by
        funext k; rw [hmap]; rfl
      cases ft <;> cases nd <;> try exact Bool.noConfusion hwf
      · -- kPlain, .field
        cases hfi
        simp [generateDiffField]
      · -- kReflectable, .obj
        rename_i nnid nsubs
        cases hfi with
        | obj hsubs =>
          rename_i onid osubs
          rw [generateDiffField_reflectable_eq, hfind0]
          simp only []
          rw [fieldIdenticalSubs_root onid nnid osubs nsubs hsubs]
          rw [ihB _ _ st hmap hwf (FieldIdentical.obj hsubs)]
          cases findRTTIType reg
              (SerializedInstance.getRootTypeId (.obj nnid nsubs)) <;>
            simp [except_bind_ok]
      · -- kReflectablePtr, .obj
        rename_i nnid nsubs
        cases hfi with
        | obj hsubs =>
          rename_i onid osubs
          rw [generateDiffField_reflectablePtr_eq,
            generateDiffField_reflectable_eq, hfind0]
          simp only []
          rw [fieldIdenticalSubs_root onid nnid osubs nsubs hsubs]
          rw [ihB _ _ st hmap hwf (FieldIdentical.obj hsubs)]
          cases findRTTIType reg
              (SerializedInstance.getRootTypeId (.obj nnid nsubs)) <;>
            simp [except_bind_ok]
      · -- kDataBlock, .dataBlock
        cases hfi
        simp [generateDiffField]
    have hA : ∀ ft orgEs newEs st, st.objectMap = [] →
        nodupNat (orgEs.map Prod.fst) = true →
        (∀ e ∈ newEs, ∃ od, (e.1, od) ∈ orgEs ∧
          FieldIdenticalOpt od e.2) →
        wfArrElems reg (fuel + 1) ft newEs = true →
        diffArrayEntries reg (fuel + 1) ft orgEs newEs st =
          .ok ([], st) := by
      intro ft orgEs newEs st hmap hnd hrel hwf
      cases newEs with
      | nil => exact diffArrayEntries_nil_eq reg fuel ft orgEs st
      | cons e rest =>
        obtain ⟨idx, elemOpt⟩ := e
        rw [wfArrElems_cons_eq, Bool.and_eq_true] at hwf
        obtain ⟨hwfe, hwfrest⟩ := hwf
        obtain ⟨od, hmo, ho⟩ := hrel _ (List.mem_cons_self _ _)
        have hfind : orgEs.find? (fun e => e.1 == idx) =
            some (idx, od) :=
          find_eq_of_nodup_keys Prod.fst orgEs (idx, od) hnd hmo
        cases elemOpt with
        | none => exact Bool.noConfusion hwfe
        | some e =>
          cases ho with
          | some hdata =>
            rename_i odd
            rw [diffArrayEntries_cons_eq, hfind]
            simp only []
            rw [ihF ft odd e st hmap hwfe hdata, except_bind_ok]
            simp only []
            rw [ihA ft orgEs rest st hmap hnd
              (fun x hx => hrel x (List.mem_cons_of_mem _ hx)) hwfrest,
              except_bind_ok]
    have hE : ∀ rtti oso newEntries st, st.objectMap = [] →
        nodupNat (oso.entries.map Prod.fst) = true →
        (∀ e ∈ newEntries, ∃ od, (e.1, od) ∈ oso.entries ∧
          FieldIdenticalOpt od e.2) →
        wfEntries reg (fuel + 1) rtti newEntries = true →
        diffEntries reg (fuel + 1) rtti (some oso) newEntries st =
          .ok ([], st) := by
      intro rtti oso newEntries st hmap hnd hrel hwf
      cases newEntries with
      | nil => exact diffEntries_nil_eq reg fuel rtti (some oso) st
      | cons e rest =>
        obtain ⟨fid, dataOpt⟩ := e
        rw [wfEntries_cons_eq, Bool.and_eq_true] at hwf
        obtain ⟨hwfhead, hwfrest⟩ := hwf
        have hrest := ihE rtti oso rest st hmap hnd
          (fun x hx => hrel x (List.mem_cons_of_mem _ hx)) hwfrest
        rw [diffEntries_cons_eq]
        split
        · exact hrest
        · rename_i genericField heq
          rw [heq] at hwfhead
          cases dataOpt with
          | none => exact Bool.noConfusion hwfhead
          | some data =>
            obtain ⟨od, hmo, ho⟩ := hrel _ (List.mem_cons_self _ _)
            clear hrel
            have hfind : oso.entries.find? (fun x => x.1 == fid) =
                some (fid, od) :=
              find_eq_of_nodup_keys Prod.fst oso.entries (fid, od)
                hnd hmo
            have horg : orgEntryLookup (some oso) fid = od :=
              orgEntryLookup_eq_of_find _ _ _ hfind
            replace hwfhead : wfEntryHead reg fuel genericField data =
                true := by with_unfolding_all exact hwfhead
            rw [wfEntryHead_eq] at hwfhead
            cases ho with
            | some hdata =>
              rename_i odd
              rw [horg]
              cases hgv : genericField.isVectorType with
              | false =>
                rw [hgv] at hwfhead
                simp only [Bool.false_eq_true, if_false] at hwfhead
                simp only [Bool.false_eq_true, if_false]
                simp only [ihF genericField.fieldType odd data st hmap
                  hwfhead hdata, hrest, except_bind_ok, pure_bind,
                  Option.isSome_none, if_false]
                rfl
              | true =>
                rw [hgv] at hwfhead
                simp only [if_true] at hwfhead
                cases data <;> try exact Bool.noConfusion hwfhead
                rename_i nNum nEs
                replace hwfhead : (nodupNat (nEs.map Prod.fst) &&
                    wfArrElems reg fuel genericField.fieldType nEs) =
                    true := hwfhead
                rw [Bool.and_eq_true] at hwfhead
                obtain ⟨hndEs, hwfEs⟩ := hwfhead
                cases hdata with
                | arr hents =>
                  rename_i oEs
                  have hndO : nodupNat (oEs.map Prod.fst) = true := by
                    rw [fieldIdenticalEntries_keys oEs nEs hents]
                    exact hndEs
                  simp only [if_true]
                  simp only [ihA genericField.fieldType oEs nEs st hmap
                    hndO (fieldIdenticalEntries_mem oEs nEs hents)
                    hwfEs, hrest, except_bind_ok,
                    pure_bind, Bool.false_eq_true, if_false]
    have hS : ∀ orgSubs newSubs st, st.objectMap = [] →
        nodupNat (orgSubs.map SerializedSubObject.typeId) = true →
        (∀ nso ∈ newSubs, ∃ oso ∈ orgSubs, oso.typeId = nso.typeId ∧
          FieldIdenticalEntries oso.entries nso.entries) →
        wfSubObjects reg (fuel + 1) newSubs = true →
        diffSubObjects reg (fuel + 1) orgSubs newSubs st =
          .ok ([], st) := by
      intro orgSubs newSubs st hmap hnd hrel hwf
      cases newSubs with
      | nil => exact diffSubObjects_nil_eq reg fuel orgSubs st
      | cons so rest =>
        rw [wfSubObjects_cons_eq, Bool.and_eq_true] at hwf
        obtain ⟨hwfso, hwfrest⟩ := hwf
        have hrest := ihS orgSubs rest st hmap hnd
          (fun x hx => hrel x (List.mem_cons_of_mem _ hx)) hwfrest
        rw [diffSubObjects_cons_eq]
        split
        · exact hrest
        · rename_i rtti heq
          rw [heq] at hwfso
          replace hwfso : (nodupNat (so.entries.map Prod.fst) &&
              wfEntries reg fuel rtti so.entries) = true := hwfso
          rw [Bool.and_eq_true] at hwfso
          obtain ⟨hndE, hwfE⟩ := hwfso
          obtain ⟨oso, hmo, hq, hent⟩ := hrel _ (List.mem_cons_self _ _)
          have hfind : orgSubs.find?
              (fun so2 => so2.typeId == so.typeId) = some oso := by
            rw [← hq]
            exact find_eq_of_nodup_keys SerializedSubObject.typeId
              orgSubs oso hnd hmo
          have hndO : nodupNat (oso.entries.map Prod.fst) = true := by
            rw [fieldIdenticalEntries_keys oso.entries so.entries hent]
            exact hndE
          rw [hfind]
          simp only [ihE rtti oso so.entries st hmap hndO
            (fieldIdenticalEntries_mem oso.entries so.entries hent)
            hwfE, hrest, except_bind_ok, pure_bind]
    have hB : ∀ org new st, st.objectMap = [] →
        wfInstance reg (fuel + 1) new = true →
        FieldIdentical org new →
        binaryGenerateDiff reg (fuel + 1) org new st =
          .ok (none, st) := by
      intro org new st hmap hwf hfi
      rw [wfInstance_succ_eq] at hwf
      cases new <;> try exact Bool.noConfusion hwf
      rename_i nnid nsubs
      cases hfi with
      | obj hsubs =>
        rename_i onid osubs
        replace hwf : (nodupNat (nsubs.map SerializedSubObject.typeId) &&
            wfSubObjects reg fuel nsubs) = true := hwf
        rw [Bool.and_eq_true] at hwf
        obtain ⟨hnd, hwfsubs⟩ := hwf
        have hndO : nodupNat
            (osubs.map SerializedSubObject.typeId) = true := by
          rw [fieldIdenticalSubs_keys osubs nsubs hsubs]
          exact hnd
        rw [binaryGenerateDiff_obj_eq]
        rw [ihS osubs nsubs st hmap hndO
          (fieldIdenticalSubs_mem osubs nsubs hsubs) hwfsubs,
          except_bind_ok]
    exact ⟨hF, hB, hS, hE, hA⟩

/-- A serialized tree of the registered type 20 whose single
`kReflectablePtr` entry (field 1) is a null reference — the serialized
form of an object whose pointer field is null. -/
def nullEntryTree : SerializedInstance :=
  .obj 100 [.mk 20 [(1, none)]]

/-- C5 (counterexample): `generateDiff(T, T)` is NOT the null diff for
every tree `T`.  For a tree whose `kReflectablePtr` entry is a null
reference, diffing the tree against itself produces a non-null diff
containing a spurious null-modification entry for that field:
geBinaryDiff.cpp lines 420–434 set `hasModification = true`
unconditionally whenever the new-side entry data is null, even though
the original entry is equally null and nothing differs. -/
theorem generateDiff_self_null_entry_nonempty :
    generateDiff sharedRefRegistry 10 nullEntryTree nullEntryTree 500 =
      .ok (some (.obj 500 [.mk 20 [(1, none)]]), ⟨[], 501⟩) := by rfl

/-- C5 (amended): for every well-formed serialized tree `T` —
duplicate-free map keys and every entry of a field known to the
registry non-null and shaped as its field kind dictates, which is what
`IntermediateSerializer::encode` produces — `generateDiff(T, T)`
returns the null diff, and so does `generateDiff(T2, T)` for every tree
`T2` that is field-identical to `T` (equal field values, sizes, array
elements and sub-object type ids, with arbitrary node identities — an
independently produced serialization of the same data). -/
theorem generateDiff_self_none (reg : TypeRegistry) (fuel : Nat)
    (tree org : SerializedInstance) (nextNid nextNid2 : Nat)
    (hwf : wfInstance reg fuel tree = true)
    (hfi : FieldIdentical org tree) :
    generateDiff reg fuel tree tree nextNid =
      .ok (none, ⟨[], nextNid⟩) ∧
    generateDiff reg fuel org tree nextNid2 =
      .ok (none, ⟨[], nextNid2⟩) :=
  ⟨(diff_self_aux reg fuel).2.1 tree ⟨[], nextNid⟩ rfl hwf,
   (diff_identical_aux reg fuel).2.1 org tree ⟨[], nextNid2⟩ rfl hwf hfi⟩

/-- Witness for C5's amended theorem: a two-level tree (type 20 with
both pointer fields referencing type-21 objects carrying a plain field)
is well-formed and self-diffs to the null diff, and diffing against the
field-identical tree with entirely different node identities (77, 55,
66 in place of 0, 3, 3) is also the null diff. -/
theorem generateDiff_self_none_witness :
    wfInstance sharedRefRegistry 20
      (.obj 0 [.mk 20
        [(1, some (.obj 3 [.mk 21 [(7, some (.field 2 [9, 9]))]])),
         (2, some (.obj 3 [.mk 21 [(7, some (.field 2 [9, 9]))]]))]]) =
      true ∧
    generateDiff sharedRefRegistry 20
      (.obj 0 [.mk 20
        [(1, some (.obj 3 [.mk 21 [(7, some (.field 2 [9, 9]))]])),
         (2, some (.obj 3 [.mk 21 [(7, some (.field 2 [9, 9]))]]))]])
      (.obj 0 [.mk 20
        [(1, some (.obj 3 [.mk 21 [(7, some (.field 2 [9, 9]))]])),
         (2, some (.obj 3 [.mk 21 [(7, some (.field 2 [9, 9]))]]))]])
      42 = .ok (none, ⟨[], 42⟩) ∧
    generateDiff sharedRefRegistry 20
      (.obj 77 [.mk 20
        [(1, some (.obj 55 [.mk 21 [(7, some (.field 2 [9, 9]))]])),
         (2, some (.obj 66 [.mk 21 [(7, some (.field 2 [9, 9]))]]))]])
      (.obj 0 [.mk 20
        [(1, some (.obj 3 [.mk 21 [(7, some (.field 2 [9, 9]))]])),
         (2, some (.obj 3 [.mk 21 [(7, some (.field 2 [9, 9]))]]))]])
      43 = .ok (none, ⟨[], 43⟩) := by
  have hinner : FieldIdenticalSubs
      [.mk 21 [(7, some (.field 2 [9, 9]))]]
      [.mk 21 [(7, some (.field 2 [9, 9]))]] :=
    FieldIdenticalSubs.cons
      (FieldIdenticalEntries.cons
        (FieldIdenticalOpt.some FieldIdenticalData.field)
        FieldIdenticalEntries.nil)
      FieldIdenticalSubs.nil
  have hfi : FieldIdentical
      (.obj 77 [.mk 20
        [(1, some (.obj 55 [.mk 21 [(7, some (.field 2 [9, 9]))]])),
         (2, some (.obj 66 [.mk 21 [(7, some (.field 2 [9, 9]))]]))]])
      (.obj 0 [.mk 20
        [(1, some (.obj 3 [.mk 21 [(7, some (.field 2 [9, 9]))]])),
         (2, some (.obj 3 [.mk 21 [(7, some (.field 2 [9, 9]))]]))]]) :=
    FieldIdentical.obj
      (FieldIdenticalSubs.cons
        (FieldIdenticalEntries.cons
          (FieldIdenticalOpt.some (FieldIdenticalData.obj hinner))
          (FieldIdenticalEntries.cons
            (FieldIdenticalOpt.some (FieldIdenticalData.obj hinner))
            FieldIdenticalEntries.nil))
        FieldIdenticalSubs.nil)
  have h := generateDiff_self_none sharedRefRegistry 20
    (.obj 0 [.mk 20
      [(1, some (.obj 3 [.mk 21 [(7, some (.field 2 [9, 9]))]])),
       (2, some (.obj 3 [.mk 21 [(7, some (.field 2 [9, 9]))]]))]])
    (.obj 77 [.mk 20
      [(1, some (.obj 55 [.mk 21 [(7, some (.field 2 [9, 9]))]])),
       (2, some (.obj 66 [.mk 21 [(7, some (.field 2 [9, 9]))]]))]])
    42 43 (by rfl) hfi
  exact ⟨by rfl, h.1, h.2⟩

/-! ## `BinaryCloner` (geBinaryCloner.cpp)

`MemorySerializer::encode/decode` (geMemorySerializer.cpp is not part
of this snapshot) are buffer-management wrappers that forward to
`BinarySerializer::encode/decode`; they are modelled as direct calls.
-/

/-- `BinaryCloner::FieldId`: the field a gathered reference lives in,
with its array index (`-1`, modelled `none`, for non-array fields). -/
structure FieldRef where
  fieldId : Nat
  arrayIdx : Option Nat

/-- `BinaryCloner::ObjectReferenceData`: per RTTI-chain level (listed
only when it contributed something), the level's type id, its gathered
`ReflectablePtr` values (`references` — field slot and the referenced
original address) and its embedded `Reflectable` children
(`children` — field slot and the child's own gathered data). -/
inductive ObjectReferenceData where
  | mk
    (subObjectData :
      List (Nat × List (FieldRef × Nat) ×
        List (FieldRef × ObjectReferenceData))) :
    ObjectReferenceData

def ObjectReferenceData.subObjectData : ObjectReferenceData →
    List (Nat × List (FieldRef × Nat) ×
      List (FieldRef × ObjectReferenceData))
  | .mk l => l

/-- Non-null entries of a `ReflectablePtr` array field, with their
indices (geBinaryCloner.cpp 94–114). -/
def gatherPtrArr (fid : Nat) : Nat → List (Option Nat) →
    List (FieldRef × Nat)
  | _, [] => []
  | j, none :: rest => gatherPtrArr fid (j + 1) rest
  | j, some a :: rest => (⟨fid, some j⟩, a) :: gatherPtrArr fid (j + 1) rest

mutual
/-- `BinaryCloner::gatherReferences` (geBinaryCloner.cpp 69–184):
walk the object's RTTI chain and collect every non-null
`ReflectablePtr` value and, recursively, every embedded `Reflectable`
child. -/
def gatherReferences (reg : TypeRegistry) :
    Nat → ObjectData → Except String ObjectReferenceData
  | 0, _ => .error "out of fuel"
  | fuel + 1, obj =>
    let chain := chainOf reg (reg.length + 1) (some obj.typeId)
    if chain.length = 0 ∨ chain.length ≠ obj.levels.length then
      .error "object does not conform to its RTTI chain"
    else do
      let subs ← gatherLevels reg fuel (chain.zip obj.levels)
      .ok (ObjectReferenceData.mk subs)
  termination_by structural fuel _ => fuel

def gatherLevels (reg : TypeRegistry) :
    Nat → List (RTTIType × List FieldValue) →
    Except String
      (List (Nat × List (FieldRef × Nat) ×
        List (FieldRef × ObjectReferenceData)))
  | 0, _ => .error "out of fuel"
  | _ + 1, [] => .ok []
  | fuel + 1, (rt, vals) :: rest => do
    if rt.fields.length ≠ vals.length then
      .error "object does not conform to its RTTI chain"
    else do
      let (refs, children) ← gatherFields reg fuel (rt.fields.zip vals)
      let tail ← gatherLevels reg fuel rest
      match refs, children with
      | [], [] => .ok tail
      | _, _ => .ok ((rt.typeId, refs, children) :: tail)
  termination_by structural fuel _ => fuel

def gatherFields (reg : TypeRegistry) :
    Nat → List (RTTIField × FieldValue) →
    Except String
      (List (FieldRef × Nat) × List (FieldRef × ObjectReferenceData))
  | 0, _ => .error "out of fuel"
  | _ + 1, [] => .ok ([], [])
  | fuel + 1, (f, v) :: rest => do
    let (refs, children) ←
      if f.isVectorType then
        match f.fieldType, v with
        | FieldKind.kReflectablePtr, FieldValue.ptrArr addrs =>
          .ok (gatherPtrArr f.uniqueId 0 addrs,
            ([] : List (FieldRef × ObjectReferenceData)))
        | FieldKind.kReflectable, FieldValue.reflArr objs => do
          let cs ← gatherReflArr reg fuel f.uniqueId 0 objs
          .ok (([] : List (FieldRef × Nat)), cs)
        | FieldKind.kPlain, FieldValue.plainArr _ =>
          .ok ([], [])
        | _, _ =>
          .error "object does not conform to its RTTI chain"
      else
        match f.fieldType, v with
        | FieldKind.kReflectablePtr, FieldValue.ptrV (some a) =>
          .ok ([(⟨f.uniqueId, none⟩, a)], [])
        | FieldKind.kReflectablePtr, FieldValue.ptrV none =>
          .ok ([], [])
        | FieldKind.kReflectable, FieldValue.reflV o => do
          let child ← gatherReferences reg fuel o
          .ok ([], [(⟨f.uniqueId, none⟩, child)])
        | FieldKind.kPlain, FieldValue.plainV _ => .ok ([], [])
        | FieldKind.kDataBlock, FieldValue.blockV _ => .ok ([], [])
        | _, _ =>
          .error "object does not conform to its RTTI chain"
    let (rtail, ctail) ← gatherFields reg fuel rest
    .ok (refs ++ rtail, children ++ ctail)
  termination_by structural fuel _ => fuel

def gatherReflArr (reg : TypeRegistry) :
    Nat → Nat → Nat → List ObjectData →
    Except String (List (FieldRef × ObjectReferenceData))
  | 0, _, _, _ => .error "out of fuel"
  | _ + 1, _, _, [] => .ok []
  | fuel + 1, fid, j, o :: rest => do
    let child ← gatherReferences reg fuel o
    let tail ← gatherReflArr reg fuel fid (j + 1) rest
    .ok ((⟨fid, some j⟩, child) :: tail)
  termination_by structural fuel _ _ _ => fuel
end

def levelIdxAux (tid : Nat) : Nat → List RTTIType →
    Option (Nat × RTTIType)
  | _, [] => none
  | i, rt :: rest =>
    if rt.typeId = tid then some (i, rt)
    else levelIdxAux tid (i + 1) rest

/-- One `setValue` / `setArrayValue` of `BinaryCloner::restoreReferences`
(geBinaryCloner.cpp 199–211): write the gathered original address into
the clone's `ReflectablePtr` slot.  The C++ reaches the slot through
the stored `RTTIField` pointer; here it is located by the level's type
id and the field's unique id in the clone's chain. -/
def setObjRef (reg : TypeRegistry) (obj : ObjectData) (tid : Nat)
    (r : FieldRef × Nat) : Except String ObjectData :=
  let chain := chainOf reg (reg.length + 1) (some obj.typeId)
  match levelIdxAux tid 0 chain with
  | none => .error "restoreReferences level not present in the clone"
  | some (lvl, rt) =>
    match rt.findFieldIdx r.1.fieldId with
    | none => .error "restoreReferences field not present in the clone"
    | some (idx, _) =>
      match r.1.arrayIdx with
      | none =>
        match obj.getFV lvl idx with
        | some (FieldValue.ptrV _) =>
          .ok (obj.setFV lvl idx (FieldValue.ptrV (some r.2)))
        | _ => .error "restore target is not a ReflectablePtr field"
      | some j =>
        match obj.getFV lvl idx with
        | some (FieldValue.ptrArr l) =>
          if j < l.length then
            .ok (obj.setFV lvl idx (FieldValue.ptrArr (l.set j (some r.2))))
          else .error "array index out of range in restoreReferences"
        | _ => .error "restore target is not a ReflectablePtr array field"

def setRefsList (reg : TypeRegistry) (tid : Nat) :
    List (FieldRef × Nat) → ObjectData → Except String ObjectData
  | [], obj => .ok obj
  | r :: rest, obj => do
    let obj ← setObjRef reg obj tid r
    setRefsList reg tid rest obj

/-- The first loop of `restoreReferences` (geBinaryCloner.cpp
190–216), iterating `subObjectData` in reverse: levels with no
gathered references are skipped. -/
def restoreRefLevels (reg : TypeRegistry) :
    List (Nat × List (FieldRef × Nat) ×
      List (FieldRef × ObjectReferenceData)) →
    ObjectData → Except String ObjectData
  | [], obj => .ok obj
  | (tid, refs, _) :: rest, obj => do
    let obj ←
      match refs with
      | [] => pure obj
      | _ => setRefsList reg tid refs obj
    restoreRefLevels reg rest obj

mutual
/-- `BinaryCloner::restoreReferences` (geBinaryCloner.cpp 186–244):
write the original `ReflectablePtr` values back into the clone —
reverse level order for this object's own references, then forward
level order recursing into embedded children (whose updates write
through into the parent, value semantics). -/
def restoreReferences (reg : TypeRegistry) :
    Nat → ObjectData → ObjectReferenceData → Except String ObjectData
  | 0, _, _ => .error "out of fuel"
  | fuel + 1, obj, rd => do
    let obj ← restoreRefLevels reg rd.subObjectData.reverse obj
    restoreChildLevels reg fuel rd.subObjectData obj
  termination_by structural fuel _ _ => fuel

def restoreChildLevels (reg : TypeRegistry) :
    Nat → List (Nat × List (FieldRef × Nat) ×
      List (FieldRef × ObjectReferenceData)) →
    ObjectData → Except String ObjectData
  | 0, _, _ => .error "out of fuel"
  | _ + 1, [], obj => .ok obj
  | fuel + 1, (tid, _, children) :: rest, obj => do
    let obj ←
      match children with
      | [] => pure obj
      | _ => restoreChildren reg fuel tid children obj
    restoreChildLevels reg fuel rest obj
  termination_by structural fuel _ _ => fuel

def restoreChildren (reg : TypeRegistry) :
    Nat → Nat → List (FieldRef × ObjectReferenceData) →
    ObjectData → Except String ObjectData
  | 0, _, _, _ => .error "out of fuel"
  | _ + 1, _, [], obj => .ok obj
  | fuel + 1, tid, (fr, childData) :: rest, obj => do
    let chain := chainOf reg (reg.length + 1) (some obj.typeId)
    let obj ←
      match levelIdxAux tid 0 chain with
      | none => .error "restoreReferences level not present in the clone"
      | some (lvl, rt) =>
        match rt.findFieldIdx fr.fieldId with
        | none =>
          .error "restoreReferences field not present in the clone"
        | some (idx, _) =>
          match fr.arrayIdx with
          | none =>
            match obj.getFV lvl idx with
            | some (FieldValue.reflV child) => do
              let child ← restoreReferences reg fuel child childData
              .ok (obj.setFV lvl idx (FieldValue.reflV child))
            | _ => .error "restore target is not a Reflectable field"
          | some j =>
            match obj.getFV lvl idx with
            | some (FieldValue.reflArr l) =>
              match l.get? j with
              | none =>
                .error "array index out of range in restoreReferences"
              | some child => do
                let child ← restoreReferences reg fuel child childData
                .ok (obj.setFV lvl idx (FieldValue.reflArr (l.set j child)))
            | _ =>
              .error "restore target is not a Reflectable array field"
    restoreChildren reg fuel tid rest obj
  termination_by structural fuel _ _ _ => fuel
end

/-- `BinaryCloner::clone(object, shallow)` (geBinaryCloner.cpp 33–67):
null clones to null; a shallow clone gathers the original's
`ReflectablePtr` values, encodes with the shallow flag (pointer slots
written as id 0 and the referenced objects never queued), decodes, and
restores the gathered original addresses into the fresh instance; a
deep clone is a plain encode/decode round trip.  The doubled
`gatherReferences` call (lines 43–47; the first pass is discarded by
`alloc.clear()`) is modelled as the single effective gather. -/
def clone (reg : TypeRegistry) (heap : Heap) (object : Option Nat)
    (shallow : Bool) (fuel : Nat) : Except String (Option Nat × Heap) :=
  match object with
  | none => .ok (none, heap)
  | some addr =>
    match heap.get addr with
    | none => .error "dangling object pointer"
    | some obj => do
      let referenceData ←
        if shallow then gatherReferences reg fuel obj
        else pure (ObjectReferenceData.mk [])
      let data ← encode reg heap addr shallow fuel
      let (clonedObj, heap) ← decode reg heap data data.length fuel
      if shallow then
        match clonedObj with
        | none => .ok (none, heap)
        | some caddr =>
          match heap.get caddr with
          | none => .error "dangling object pointer"
          | some cobj => do
            let cobj ← restoreReferences reg fuel cobj referenceData
            .ok (some caddr, heap.setObj caddr cobj)
      else
        .ok (clonedObj, heap)

lemma emit_nil (st : EncState) : st.emit [] = st := by
  simp [EncState.emit]

/-- With the shallow flag the encoder never reads a `ReflectablePtr`
array's values: every slot writes persistent id 0 and the encoder
state (queue, id map) is untouched. -/
lemma encodePtrArrElems_shallow : ∀ (fuel : Nat)
    (addrs : List (Option Nat)) (st : EncState),
    addrs.length < fuel →
    encodePtrArrElems fuel addrs true st =
      .ok (st.emit (List.flatten (addrs.map (fun _ => write32 0))))
  | fuel + 1, [], st, _ => by
    simp [encodePtrArrElems, emit_nil]
  | fuel + 1, a :: rest, st, h => by
    have ih := encodePtrArrElems_shallow fuel rest (st.emit (write32 0))
      (Nat.lt_of_succ_lt_succ h)
    simp only [EncState.emit] at ih
    simp only [encodePtrArrElems, if_true, registerObjectPtr,
      EncState.emit, ih]
    simp [List.append_assoc]

/-- C6: shallow vs deep clone.  General part: with the shallow flag a
`ReflectablePtr` slot registers the null pointer — persistent id 0,
no fresh id, nothing queued, state unchanged — and a whole pointer
array encodes as id-0 words with the encoder state untouched, so the
referenced objects are never copied into the stream.  Family part
(object A of type 20 whose two `ReflectablePtr` fields share one
object C of type 21 with payload `[c0, c1]`): `clone(A, shallow=true)`
yields a fresh instance (address 2) whose both pointer fields hold the
ORIGINAL C's address 1 — pointer-identical sharing — while
`clone(A, shallow=false)` yields a fresh instance whose fields hold a
freshly decoded copy of C at address 3 ≠ 1, byte-equal to C; the
original two objects are unchanged in both heaps. -/
theorem cloner_shallow_shares_deep_copies (c0 c1 fuel : Nat)
    (addrs : List (Option Nat)) (st : EncState)
    (h : addrs.length < fuel) :
    registerObjectPtr st none = (0, st) ∧
    encodePtrArrElems fuel addrs true st =
      .ok (st.emit (List.flatten (addrs.map (fun _ => write32 0)))) ∧
    clone sharedRefRegistry (sharedRefHeap c0 c1) (some 0) true 40 =
      .ok (some 2,
        ⟨[(0, ObjectData.mk 20
            [[FieldValue.ptrV (some 1), FieldValue.ptrV (some 1)]]),
          (1, ObjectData.mk 21 [[FieldValue.plainV [c0, c1]]]),
          (2, ObjectData.mk 20
            [[FieldValue.ptrV (some 1), FieldValue.ptrV (some 1)]])],
         3⟩) ∧
    clone sharedRefRegistry (sharedRefHeap c0 c1) (some 0) false 40 =
      .ok (some 2,
        ⟨[(0, ObjectData.mk 20
            [[FieldValue.ptrV (some 1), FieldValue.ptrV (some 1)]]),
          (1, ObjectData.mk 21 [[FieldValue.plainV [c0, c1]]]),
          (2, ObjectData.mk 20
            [[FieldValue.ptrV (some 3), FieldValue.ptrV (some 3)]]),
          (3, ObjectData.mk 21 [[FieldValue.plainV [c0, c1]]])],
         4⟩) :=
  ⟨rfl, encodePtrArrElems_shallow fuel addrs st h, by rfl, by rfl⟩

/-- Witness for C6 at payload `[5, 6]`, a two-element pointer array
and fuel 3. -/
theorem cloner_shallow_shares_deep_copies_witness :
    ([some 7, none] : List (Option Nat)).length < 3 ∧
    (clone sharedRefRegistry (sharedRefHeap 5 6) (some 0) true 40 =
      .ok (some 2,
        ⟨[(0, ObjectData.mk 20
            [[FieldValue.ptrV (some 1), FieldValue.ptrV (some 1)]]),
          (1, ObjectData.mk 21 [[FieldValue.plainV [5, 6]]]),
          (2, ObjectData.mk 20
            [[FieldValue.ptrV (some 1), FieldValue.ptrV (some 1)]])],
         3⟩)) :=
  ⟨by decide,
    (cloner_shallow_shares_deep_copies 5 6 3 [some 7, none]
      ⟨[], [], [], 1⟩ (by decide)).2.2.1⟩

/-! ## The intermediate (tree) serializer and the binary diff patcher

`IntermediateSerializer::encode` (geSerializedObject.cpp 135–140 /
396–613) turns a live object into a `SerializedObject` tree —
`toTree`.  `BinaryDiff::applyDiff` (geBinaryDiff.cpp 463–816) turns a
diff tree into a command list, and `IDiff::applyDiff`
(geBinaryDiff.cpp 156–312) executes it. -/

/-- `std::map` insertion for a sub-object's entry map, keyed on the
field id (`subObject.entries.insert`, geSerializedObject.cpp 603):
kept sorted ascending; an existing key is left in place. -/
def insertEntrySorted (e : Nat × Option SerializedInstance) :
    List (Nat × Option SerializedInstance) →
    List (Nat × Option SerializedInstance)
  | [] => [e]
  | x :: xs =>
    if e.1 < x.1 then e :: x :: xs
    else if e.1 = x.1 then x :: xs
    else x :: insertEntrySorted e xs

def IntermediateSerializer.encodePlainArrElems (f : RTTIField) :
    Nat → List (List Nat) → List (Nat × Option SerializedInstance)
  | _, [] => []
  | i, bytes :: rest =>
    let typeSize := if f.hasDynSize then bytes.length else f.typeSize
    (i, some (.field typeSize bytes)) ::
      IntermediateSerializer.encodePlainArrElems f (i + 1) rest

mutual
/-- `IntermediateSerializer::encodeEntry(object, shallow)`
(geSerializedObject.cpp 396–613): one `SerializedSubObject` per
RTTI-chain level (most derived first), each field contributing one
entry keyed by its id; `ReflectablePtr` children are recursively
encoded in place (no sharing — a null or shallow pointer leaves the
entry's data null).  `ctr` supplies fresh node identities for the
allocated `SerializedObject`s: the output object is allocated
(`ge_shared_ptr_new`) before its children are encoded, so it takes the
incoming identity and the children take the following ones. -/
def IntermediateSerializer.encodeEntry (reg : TypeRegistry)
    (heap : Heap) (shallow : Bool) :
    Nat → ObjectData → Nat → Except String (SerializedInstance × Nat)
  | 0, _, _ => .error "out of fuel"
  | fuel + 1, obj, ctr =>
    let chain := chainOf reg (reg.length + 1) (some obj.typeId)
    if chain.length = 0 ∨ chain.length ≠ obj.levels.length then
      .error "object does not conform to its RTTI chain"
    else do
      let (subs, ctr2) ← IntermediateSerializer.encodeLevels reg heap
        shallow fuel (chain.zip obj.levels) (ctr + 1)
      .ok (.obj ctr subs, ctr2)
  termination_by structural fuel _ _ => fuel

def IntermediateSerializer.encodeLevels (reg : TypeRegistry)
    (heap : Heap) (shallow : Bool) :
    Nat → List (RTTIType × List FieldValue) → Nat →
    Except String (List SerializedSubObject × Nat)
  | 0, _, _ => .error "out of fuel"
  | _ + 1, [], ctr => .ok ([], ctr)
  | fuel + 1, (rt, vals) :: rest, ctr => do
    if rt.fields.length ≠ vals.length then
      .error "object does not conform to its RTTI chain"
    else do
      let (entries, ctr) ← IntermediateSerializer.encodeFields reg heap
        shallow fuel (rt.fields.zip vals) ctr
      let (tail, ctr) ← IntermediateSerializer.encodeLevels reg heap
        shallow fuel rest ctr
      .ok (.mk rt.typeId entries :: tail, ctr)
  termination_by structural fuel _ _ => fuel

def IntermediateSerializer.encodeFields (reg : TypeRegistry)
    (heap : Heap) (shallow : Bool) :
    Nat → List (RTTIField × FieldValue) → Nat →
    Except String (List (Nat × Option SerializedInstance) × Nat)
  | 0, _, _ => .error "out of fuel"
  | _ + 1, [], ctr => .ok ([], ctr)
  | fuel + 1, (f, v) :: rest, ctr => do
    let (serializedEntry, ctr) ←
      if f.isVectorType then
        match f.fieldType, v with
        | FieldKind.kReflectablePtr, FieldValue.ptrArr addrs => do
          let (es, ctr) ← IntermediateSerializer.encodePtrArrElems reg
            heap shallow fuel 0 addrs ctr
          .ok (some (.arr addrs.length es), ctr)
        | FieldKind.kReflectable, FieldValue.reflArr objs => do
          let (es, ctr) ← IntermediateSerializer.encodeReflArrElems reg
            heap shallow fuel 0 objs ctr
          .ok (some (.arr objs.length es), ctr)
        | FieldKind.kPlain, FieldValue.plainArr elems =>
          .ok (some (.arr elems.length
            (IntermediateSerializer.encodePlainArrElems f 0 elems)),
            ctr)
        | _, _ =>
          .error "Error encoding data. Encountered a type I don't know how to encode."
      else
        match f.fieldType, v with
        | FieldKind.kReflectablePtr, FieldValue.ptrV a =>
          if shallow then .ok (none, ctr)
          else
            match a with
            | none => .ok (none, ctr)
            | some addr =>
              match heap.get addr with
              | none => .error "dangling object pointer"
              | some child => do
                let (t, ctr) ← IntermediateSerializer.encodeEntry reg
                  heap shallow fuel child ctr
                .ok (some t, ctr)
        | FieldKind.kReflectable, FieldValue.reflV o => do
          let (t, ctr) ← IntermediateSerializer.encodeEntry reg heap
            shallow fuel o ctr
          .ok (some t, ctr)
        | FieldKind.kPlain, FieldValue.plainV bytes =>
          let typeSize := if f.hasDynSize then bytes.length
            else f.typeSize
          .ok (some (.field typeSize bytes), ctr)
        | FieldKind.kDataBlock, FieldValue.blockV bytes =>
          .ok (some (.dataBlock bytes.length bytes), ctr)
        | _, _ =>
          .error "Error encoding data. Encountered a type I don't know how to encode."
    let (tail, ctr) ← IntermediateSerializer.encodeFields reg heap
      shallow fuel rest ctr
    .ok (insertEntrySorted (f.uniqueId, serializedEntry) tail, ctr)
  termination_by structural fuel _ _ => fuel

def IntermediateSerializer.encodePtrArrElems (reg : TypeRegistry)
    (heap : Heap) (shallow : Bool) :
    Nat → Nat → List (Option Nat) → Nat →
    Except String (List (Nat × Option SerializedInstance) × Nat)
  | 0, _, _, _ => .error "out of fuel"
  | _ + 1, _, [], ctr => .ok ([], ctr)
  | fuel + 1, i, a :: rest, ctr => do
    let (e, ctr) ←
      if shallow then .ok ((none : Option SerializedInstance), ctr)
      else
        match a with
        | none => .ok (none, ctr)
        | some addr =>
          match heap.get addr with
          | none => .error "dangling object pointer"
          | some child => do
            let (t, ctr) ← IntermediateSerializer.encodeEntry reg heap
              shallow fuel child ctr
            .ok (some t, ctr)
    let (tail, ctr) ← IntermediateSerializer.encodePtrArrElems reg heap
      shallow fuel (i + 1) rest ctr
    .ok ((i, e) :: tail, ctr)
  termination_by structural fuel _ _ _ => fuel

def IntermediateSerializer.encodeReflArrElems (reg : TypeRegistry)
    (heap : Heap) (shallow : Bool) :
    Nat → Nat → List ObjectData → Nat →
    Except String (List (Nat × Option SerializedInstance) × Nat)
  | 0, _, _, _ => .error "out of fuel"
  | _ + 1, _, [], ctr => .ok ([], ctr)
  | fuel + 1, i, o :: rest, ctr => do
    let (t, ctr) ← IntermediateSerializer.encodeEntry reg heap shallow
      fuel o ctr
    let (tail, ctr) ← IntermediateSerializer.encodeReflArrElems reg
      heap shallow fuel (i + 1) rest ctr
    .ok ((i, some t) :: tail, ctr)
  termination_by structural fuel _ _ _ => fuel
end

/-- `SerializedObject::create(obj, shallow)` /
`IntermediateSerializer::encode` — the spec's `toTree`. -/
def toTree (reg : TypeRegistry) (heap : Heap) (addr : Nat)
    (shallow : Bool) (fuel : Nat) (ctr : Nat) :
    Except String (SerializedInstance × Nat) :=
  match heap.get addr with
  | none => .error "dangling object pointer"
  | some obj =>
    IntermediateSerializer.encodeEntry reg heap shallow fuel obj ctr

/-- `DIFF_COMMAND_TYPE` (declared in a header not part of this
snapshot; the base kind is extracted with `& 0xF` and the array bit
with `& kArrayFlag` — modelled structurally as the base kind, with the
array bit a separate `DiffCommand` field). -/
inductive DiffCommandType where
  | kPlain
  | kReflectable
  | kReflectablePtr
  | kDataBlock
  | kArraySize
  | kObjectStart
  | kObjectEnd
  | kSubObjectStart
deriving DecidableEq

/-- `DiffCommand` (declaring header not part of this snapshot; fields
as used by geBinaryDiff.cpp): the command kind and array bit, the
target field (its owning type id and unique field id — the C++ stores
the `RTTIField` pointer), the array index / size operands, the plain
or data-block payload bytes, and the live object operand. -/
structure DiffCommand where
  ctype : DiffCommandType
  isArrayCmd : Bool
  tid : Nat
  fieldId : Option Nat
  arrayIdx : Nat
  arraySize : Nat
  value : List Nat
  size : Nat
  object : Option Nat

/-- `IReflectable::isDerivedFrom(rtti)`: the type appears in the
object's RTTI chain. -/
def isDerivedFrom (reg : TypeRegistry) (od : ObjectData)
    (tid : Nat) : Bool :=
  (chainOf reg (reg.length + 1) (some od.typeId)).any
    (fun rt => rt.typeId == tid)

/-- `RTTITypeBase::newRTTIObject` followed by taking the new
instance's address. -/
def newRTTIObjectOn (reg : TypeRegistry) (fuel : Nat) (heap : Heap)
    (typeId : Nat) : Except String (Nat × Heap) :=
  match defaultObject reg fuel typeId with
  | none => .error "cannot default-construct the instance"
  | some o => .ok (heap.alloc o)

/-- `BinaryCloner::clone(&embeddedValue, shallow)`: the C++ clones an
embedded (by-value) member through its address; the value is given a
heap address first (it lives inside its parent in the C++, which the
flat heap does not track). -/
def cloneValue (reg : TypeRegistry) (heap : Heap) (o : ObjectData)
    (shallow : Bool) (fuel : Nat) :
    Except String (Option Nat × Heap) :=
  let (tmpAddr, h1) := heap.alloc o
  clone reg h1 (some tmpAddr) shallow fuel

/-- The command list / object map / live heap threaded through
`BinaryDiff::applyDiff`'s command generation (`diffCommands`,
`objectMap`, and the process heap receiving `newRTTIObject` and
`BinaryCloner::clone` allocations). -/
structure ApplyDiffState where
  diffCommands : List DiffCommand
  objectMap : List (Nat × Nat)
  heap : Heap

def ApplyDiffState.push (st : ApplyDiffState) (c : DiffCommand) :
    ApplyDiffState :=
  { st with diffCommands := st.diffCommands ++ [c] }

/-- Lines 604–609: shallow-clone the first `min(orgArraySize,
numArrayElements)` live elements of a `Reflectable` array; the
remaining slots of `newArrayElements` stay null. -/
def cloneReflElems (reg : TypeRegistry) (fuel : Nat) :
    List ObjectData → Heap → Except String (List (Option Nat) × Heap)
  | [], heap => .ok ([], heap)
  | o :: rest, heap => do
    let (c, heap) ← cloneValue reg heap o true fuel
    let (tail, heap) ← cloneReflElems reg fuel rest heap
    .ok (c :: tail, heap)

/-- Lines 642–651: one `kReflectable | kArrayFlag` command per new
array slot, carrying the patched (or null) element. -/
def emitReflArrCommands (tid fid : Nat) :
    Nat → List (Option Nat) → List DiffCommand
  | _, [] => []
  | i, o :: rest =>
    ⟨.kReflectable, true, tid, some fid, i, 0, [], 0, o⟩ ::
      emitReflArrCommands tid fid (i + 1) rest

/-- Lines 656–670: one `kPlain | kArrayFlag` command per non-null
array diff entry. -/
def emitPlainArrCommands (tid fid : Nat) :
    List (Nat × Option SerializedInstance) →
    Except String (List DiffCommand)
  | [] => .ok []
  | (_, none) :: rest => emitPlainArrCommands tid fid rest
  | (idx, some (.field size value)) :: rest => do
    let tail ← emitPlainArrCommands tid fid rest
    .ok (⟨.kPlain, true, tid, some fid, idx, 0, value, size, none⟩ ::
      tail)
  | (_, some _) :: _ =>
    .error "plain array diff entry is not a SerializedField"

mutual
/-- `BinaryDiff::applyDiff(object, diff, alloc, objectMap,
diffCommands, context)` (geBinaryDiff.cpp 463–816), the command
generation.  After the entry guard (472–476) it walks the diff's
sub-objects and entries pushing field commands into `diffCommands`,
then appends the `kObjectStart` / `kObjectEnd` pair (796–808).  The
`kSubObjectStart` command goes into the function-local `commands`
vector, which is moved into `commandsPerSubObj` (479, 793) — a
variable that is never read — so it never reaches `diffCommands`, and
the field commands precede the object markers. -/
def binaryApplyDiff (reg : TypeRegistry) :
    Nat → Option Nat → Option SerializedInstance → ApplyDiffState →
    Except String ApplyDiffState
  | 0, _, _, _ => .error "out of fuel"
  | fuel + 1, object, diff, st =>
    match object with
    | none => .ok st
    | some addr =>
      match diff with
      | none => .ok st
      | some d =>
        match st.heap.get addr with
        | none => .error "dangling object pointer"
        | some od =>
          if od.typeId ≠ SerializedInstance.getRootTypeId d then
            .ok st
          else
            match d with
            | .obj _ dsubs => do
              let st ← applyDiffSubObjects reg fuel addr dsubs st
              let st := st.push
                ⟨.kObjectStart, false, 0, none, 0, 0, [], 0, some addr⟩
              .ok (st.push
                ⟨.kObjectEnd, false, 0, none, 0, 0, [], 0, some addr⟩)
            | _ => .error "BinaryDiff::applyDiff diff is not an object"
  termination_by structural fuel _ _ _ => fuel

def applyDiffSubObjects (reg : TypeRegistry) :
    Nat → Nat → List SerializedSubObject → ApplyDiffState →
    Except String ApplyDiffState
  | 0, _, _, _ => .error "out of fuel"
  | _ + 1, _, [], st => .ok st
  | fuel + 1, addr, so :: rest, st =>
    match findRTTIType reg so.typeId with
    | none => applyDiffSubObjects reg fuel addr rest st
    | some rtti =>
      match st.heap.get addr with
      | none => .error "dangling object pointer"
      | some od =>
        if ¬ isDerivedFrom reg od rtti.typeId then
          applyDiffSubObjects reg fuel addr rest st
        else do
          let st ← applyDiffEntries reg fuel addr rtti so.entries st
          applyDiffSubObjects reg fuel addr rest st
  termination_by structural fuel _ _ _ => fuel

def applyDiffEntries (reg : TypeRegistry) :
    Nat → Nat → RTTIType → List (Nat × Option SerializedInstance) →
    ApplyDiffState → Except String ApplyDiffState
  | 0, _, _, _, _ => .error "out of fuel"
  | _ + 1, _, _, [], st => .ok st
  | fuel + 1, addr, rtti, (fid, diffData) :: rest, st =>
    match rtti.findField fid with
    | none => applyDiffEntries reg fuel addr rtti rest st
    | some genericField => do
      let st ←
        match st.heap.get addr with
        | none => .error "dangling object pointer"
        | some od =>
          match levelIdxAux rtti.typeId 0
              (chainOf reg (reg.length + 1) (some od.typeId)) with
          | none => .error "sub-object level not in the target's chain"
          | some (lvl, rt) =>
            match rt.findFieldIdx fid with
            | none => .error "field not in the target's chain"
            | some (idx, _) =>
              if genericField.isVectorType then
                match diffData with
                | none =>
                  .error "null array diff data dereferenced in BinaryDiff::applyDiff"
                | some (.arr numArrayElements des) =>
                  let st := st.push ⟨.kArraySize, true, rtti.typeId,
                    some fid, 0, numArrayElements, [], 0, none⟩
                  match genericField.fieldType with
                  | FieldKind.kReflectablePtr =>
                    match od.getFV lvl idx with
                    | some (FieldValue.ptrArr liveElems) =>
                      applyDiffPtrArrEntries reg fuel genericField
                        rtti.typeId liveElems des st
                    | _ => .error "live field is not a ReflectablePtr array"
                  | FieldKind.kReflectable =>
                    match od.getFV lvl idx with
                    | some (FieldValue.reflArr liveObjs) => do
                      let (cloned, heap) ← cloneReflElems reg fuel
                        (liveObjs.take numArrayElements) st.heap
                      let newArrayElements := cloned ++
                        List.replicate
                          (numArrayElements - cloned.length) none
                      let st := { st with heap := heap }
                      let (newArrayElements, st) ←
                        applyDiffReflArrPatch reg fuel
                          liveObjs.length newArrayElements des st
                      let cs := st.diffCommands ++
                        emitReflArrCommands rtti.typeId fid 0
                          newArrayElements
                      .ok { st with diffCommands := cs }
                    | _ => .error "live field is not a Reflectable array"
                  | FieldKind.kPlain => do
                    let cmds ← emitPlainArrCommands rtti.typeId fid des
                    let cs := st.diffCommands ++ cmds
                    .ok { st with diffCommands := cs }
                  | FieldKind.kDataBlock => .ok st
                | some _ =>
                  .error "array diff data is not a SerializedArray"
              else
                match genericField.fieldType with
                | FieldKind.kReflectablePtr =>
                  (match diffData with
                  | none => .ok (st.push ⟨.kReflectablePtr, false,
                      rtti.typeId, some fid, 0, 0, [], 0, none⟩)
                  | some fieldObjectData =>
                    match od.getFV lvl idx with
                    | some (FieldValue.ptrV (some caddr)) => do
                      let st ← binaryApplyDiff reg fuel (some caddr)
                        (some fieldObjectData) st
                      .ok (st.push ⟨.kReflectablePtr, false,
                        rtti.typeId, some fid, 0, 0, [], 0, some caddr⟩)
                    | some (FieldValue.ptrV none) =>
                      (match findRTTIType reg
                          (SerializedInstance.getRootTypeId
                            fieldObjectData) with
                      | none => .ok (st.push ⟨.kReflectablePtr, false,
                          rtti.typeId, some fid, 0, 0, [], 0, none⟩)
                      | some _ => do
                        let (target, st) ←
                          match (st.objectMap.find? (fun p =>
                              p.1 == fieldObjectData.nidOf)) with
                          | some p => .ok (p.2, st)
                          | none => do
                            let (naddr, heap) ← newRTTIObjectOn reg
                              fuel st.heap
                              (SerializedInstance.getRootTypeId
                                fieldObjectData)
                            let om := st.objectMap ++
                              [(fieldObjectData.nidOf, naddr)]
                            .ok (naddr,
                              { st with heap := heap, objectMap := om })
                        let st ← binaryApplyDiff reg fuel (some target)
                          (some fieldObjectData) st
                        .ok (st.push ⟨.kReflectablePtr, false,
                          rtti.typeId, some fid, 0, 0, [], 0,
                          some target⟩))
                    | _ => .error "live field is not a ReflectablePtr")
                | FieldKind.kReflectable =>
                  (match od.getFV lvl idx with
                  | some (FieldValue.reflV childObj) => do
                    let (clonedOpt, heap) ← cloneValue reg st.heap
                      childObj true fuel
                    let st := { st with heap := heap }
                    match clonedOpt with
                    | none => .error "null clone dereferenced in BinaryDiff::applyDiff"
                    | some claddr => do
                      let st ← binaryApplyDiff reg fuel (some claddr)
                        diffData st
                      .ok (st.push ⟨.kReflectable, false, rtti.typeId,
                        some fid, 0, 0, [], 0, some claddr⟩)
                  | _ => .error "live field is not a Reflectable")
                | FieldKind.kPlain =>
                  (match diffData with
                  | none =>
                    .error "null SerializedField dereferenced in BinaryDiff::applyDiff"
                  | some (.field size value) =>
                    if size > 0 then
                      .ok (st.push ⟨.kPlain, false, rtti.typeId,
                        some fid, 0, 0, value, size, none⟩)
                    else .ok st
                  | some _ =>
                    .error "plain diff data is not a SerializedField")
                | FieldKind.kDataBlock =>
                  (match diffData with
                  | none =>
                    .error "null SerializedDataBlock dereferenced in BinaryDiff::applyDiff"
                  | some (.dataBlock size bytes) =>
                    .ok (st.push ⟨.kDataBlock, false, rtti.typeId,
                      some fid, 0, 0, bytes, size, none⟩)
                  | some _ =>
                    .error "data block diff data is not a SerializedDataBlock")
      applyDiffEntries reg fuel addr rtti rest st
  termination_by structural fuel _ _ _ _ => fuel

def applyDiffPtrArrEntries (reg : TypeRegistry) :
    Nat → RTTIField → Nat → List (Option Nat) →
    List (Nat × Option SerializedInstance) → ApplyDiffState →
    Except String ApplyDiffState
  | 0, _, _, _, _, _ => .error "out of fuel"
  | _ + 1, _, _, _, [], st => .ok st
  | fuel + 1, f, tid, liveElems, (idx, elemOpt) :: rest, st => do
    let st ←
      match elemOpt with
      | none => .ok (st.push ⟨.kReflectablePtr, true, tid,
          some f.uniqueId, idx, 0, [], 0, none⟩)
      | some arrayElemData =>
        match liveElems.get? idx with
        | some (some caddr) =>
          -- Existing non-null element: recursively patched in place,
          -- but the command carrying it is never pushed (the
          -- `diffCommands.push_back` present in the other arms is
          -- absent after line 562).
          binaryApplyDiff reg fuel (some caddr) (some arrayElemData) st
        | _ =>
          match findRTTIType reg
              (SerializedInstance.getRootTypeId arrayElemData) with
          | none => .ok (st.push ⟨.kReflectablePtr, true, tid,
              some f.uniqueId, idx, 0, [], 0, none⟩)
          | some _ => do
            let (target, st) ←
              match (st.objectMap.find? (fun p =>
                  p.1 == arrayElemData.nidOf)) with
              | some p => .ok (p.2, st)
              | none => do
                let (naddr, heap) ← newRTTIObjectOn reg fuel st.heap
                  (SerializedInstance.getRootTypeId arrayElemData)
                let om := st.objectMap ++ [(arrayElemData.nidOf, naddr)]
                .ok (naddr,
                  { st with heap := heap, objectMap := om })
            let st ← binaryApplyDiff reg fuel (some target)
              (some arrayElemData) st
            .ok (st.push ⟨.kReflectablePtr, true, tid,
              some f.uniqueId, idx, 0, [], 0, some target⟩)
    applyDiffPtrArrEntries reg fuel f tid liveElems rest st
  termination_by structural fuel _ _ _ _ _ => fuel

def applyDiffReflArrPatch (reg : TypeRegistry) :
    Nat → Nat → List (Option Nat) →
    List (Nat × Option SerializedInstance) → ApplyDiffState →
    Except String (List (Option Nat) × ApplyDiffState)
  | 0, _, _, _, _ => .error "out of fuel"
  | _ + 1, _, newArrayElements, [], st => .ok (newArrayElements, st)
  | fuel + 1, orgArraySize, newArrayElements, (idx, elemOpt) :: rest,
      st => do
    let (newArrayElements, st) ←
      if idx < orgArraySize then
        match newArrayElements.get? idx with
        | some (some caddr) => do
          let st ← binaryApplyDiff reg fuel (some caddr) elemOpt st
          .ok (newArrayElements, st)
        | _ =>
          .error "null clone dereferenced in BinaryDiff::applyDiff"
      else
        match elemOpt with
        | none =>
          .error "null array element dereferenced in BinaryDiff::applyDiff"
        | some arrayElemData =>
          match findRTTIType reg
              (SerializedInstance.getRootTypeId arrayElemData) with
          | none => .ok (newArrayElements, st)
          | some _ => do
            let (naddr, heap) ← newRTTIObjectOn reg fuel st.heap
              (SerializedInstance.getRootTypeId arrayElemData)
            let st := { st with heap := heap }
            let st ← binaryApplyDiff reg fuel (some naddr)
              (some arrayElemData) st
            .ok (newArrayElements.set idx (some naddr), st)
    applyDiffReflArrPatch reg fuel orgArraySize newArrayElements rest
      st
  termination_by structural fuel _ _ _ _ => fuel
end

/-- One field-command application of the executor (the second switch of
IDiff::applyDiff, lines 251–308): the slot is located through the
command's owning type id and field id in the destination's chain (the
C++ reaches it through the stored `RTTIField` pointer and the current
RTTI instance). -/
def applyFieldCommand (reg : TypeRegistry) (fuel : Nat) (heap : Heap)
    (addr : Nat) (c : DiffCommand) : Except String Heap :=
  match c.fieldId with
  | none => .error "field command without a field in IDiff::applyDiff"
  | some fid =>
    match heap.get addr with
    | none => .error "dangling object pointer"
    | some od =>
      match levelIdxAux c.tid 0
          (chainOf reg (reg.length + 1) (some od.typeId)) with
      | none => .error "command level not in the target's chain"
      | some (lvl, rt) =>
        match rt.findFieldIdx fid with
        | none => .error "command field not in the target's chain"
        | some (idx, f) =>
          match c.ctype, c.isArrayCmd with
          | .kArraySize, _ =>
            .ok (setArraySizeOn reg fuel ⟨heap, []⟩ addr lvl idx f
              c.arraySize).heap
          | .kReflectablePtr, true =>
            .ok (setPtrArrElemOn ⟨heap, []⟩ addr lvl idx c.arrayIdx
              c.object).heap
          | .kReflectable, true =>
            (match c.object with
            | none => .error "null object dereferenced in IDiff::applyDiff"
            | some oaddr =>
              match heap.get oaddr with
              | none => .error "dangling object pointer"
              | some od2 =>
                .ok (setReflArrElemOn ⟨heap, []⟩ addr lvl idx
                  c.arrayIdx od2).heap)
          | .kPlain, true =>
            .ok (setPlainArrElemOn ⟨heap, []⟩ addr lvl idx c.arrayIdx
              c.value).heap
          | .kReflectablePtr, false =>
            .ok ((DecState.setField ⟨heap, []⟩ addr lvl idx
              (FieldValue.ptrV c.object)).heap)
          | .kReflectable, false =>
            (match c.object with
            | none => .error "null object dereferenced in IDiff::applyDiff"
            | some oaddr =>
              match heap.get oaddr with
              | none => .error "dangling object pointer"
              | some od2 =>
                .ok ((DecState.setField ⟨heap, []⟩ addr lvl idx
                  (FieldValue.reflV od2)).heap))
          | .kPlain, false =>
            .ok ((DecState.setField ⟨heap, []⟩ addr lvl idx
              (FieldValue.plainV c.value)).heap)
          | .kDataBlock, false =>
            .ok ((DecState.setField ⟨heap, []⟩ addr lvl idx
              (FieldValue.blockV c.value)).heap)
          | _, _ => .ok heap

/-- The command-execution loop of `IDiff::applyDiff` (geBinaryDiff.cpp
174–309).  `destObject` is set only by a `kObjectStart` command and
cleared when the object stack empties at `kObjectEnd`; every data or
array-size command dereferences it, so a data command arriving while
it is null is the C++'s null-pointer dereference, modelled as an
error.  `kSubObjectStart` only selects the RTTI instance used for the
lifecycle hooks (and is, in fact, never emitted — see
`binaryApplyDiff`); the slot is located per command here. -/
def executeDiffCommands (reg : TypeRegistry) (fuel : Nat) :
    List DiffCommand → Heap → Option Nat → List Nat →
    Except String Heap
  | [], heap, _, _ => .ok heap
  | c :: rest, heap, destObject, objectStack =>
    match c.ctype with
    | .kObjectStart =>
      (match c.object with
      | none => .error "null object dereferenced in IDiff::applyDiff"
      | some a =>
        executeDiffCommands reg fuel rest heap (some a)
          (a :: objectStack))
    | .kObjectEnd =>
      let stack := objectStack.tail
      executeDiffCommands reg fuel rest heap stack.head? stack
    | .kSubObjectStart =>
      executeDiffCommands reg fuel rest heap destObject objectStack
    | _ =>
      match destObject with
      | none => .error "null object dereferenced in IDiff::applyDiff"
      | some addr => do
        let heap ← applyFieldCommand reg fuel heap addr c
        executeDiffCommands reg fuel rest heap destObject objectStack

/-- `IDiff::applyDiff(object, diff, context)` (geBinaryDiff.cpp
156–166 + 174–309): generate the command list through the type's diff
handler — `RTTITypeBase::getDiffHandler` returns the static
`BinaryDiff` — then execute it against an initially null
`destObject`. -/
def applyDiffTop (reg : TypeRegistry) (fuel : Nat) (heap : Heap)
    (object : Option Nat) (diff : Option SerializedInstance) :
    Except String Heap := do
  let st ← binaryApplyDiff reg fuel object diff ⟨[], [], heap⟩
  executeDiffCommands reg fuel st.diffCommands st.heap none []

/-- Two live objects of type 21 differing in their single 2-byte plain
field: the `orig` / `new` pair of the diff-patch counterexample. -/
def diffPatchHeap : Heap :=
  ⟨[(0, ObjectData.mk 21 [[FieldValue.plainV [1, 2]]]),
    (1, ObjectData.mk 21 [[FieldValue.plainV [3, 4]]])], 2⟩

def diffPatchOrgTree : SerializedInstance :=
  .obj 100 [.mk 21 [(7, some (.field 2 [1, 2]))]]

def diffPatchNewTree : SerializedInstance :=
  .obj 200 [.mk 21 [(7, some (.field 2 [3, 4]))]]

def diffPatchDiffTree : SerializedInstance :=
  .obj 300 [.mk 21 [(7, some (.field 2 [3, 4]))]]

/-- `diffPatchHeap` extended with the clone of object 0 at address
2. -/
def diffPatchClonedHeap : Heap :=
  ⟨[(0, ObjectData.mk 21 [[FieldValue.plainV [1, 2]]]),
    (1, ObjectData.mk 21 [[FieldValue.plainV [3, 4]]]),
    (2, ObjectData.mk 21 [[FieldValue.plainV [1, 2]]])], 3⟩

/-- C2 (counterexample): diff-then-patch does NOT reproduce `new`.
For the minimal pair of same-type acyclic graphs differing in one
plain field, `generateDiff(toTree(orig), toTree(new))` is a correct
one-entry diff, but `applyDiff(clone(orig), diff)` dereferences a null
pointer instead of patching: `BinaryDiff::applyDiff` pushes every
field command directly into `diffCommands` (the `kSubObjectStart`
marker lands in the never-read `commandsPerSubObj`, geBinaryDiff.cpp
479/496–503/793) and appends `kObjectStart`/`kObjectEnd` only
afterwards (796–808), so the executor (174–309) receives the field
command while `destObject` is still null and crashes; the clone's
field is never written. -/
theorem diff_patch_null_deref :
    toTree sharedRefRegistry diffPatchHeap 0 false 20 100 =
      .ok (diffPatchOrgTree, 101) ∧
    toTree sharedRefRegistry diffPatchHeap 1 false 20 200 =
      .ok (diffPatchNewTree, 201) ∧
    generateDiff sharedRefRegistry 20 diffPatchOrgTree
      diffPatchNewTree 300 = .ok (some diffPatchDiffTree, ⟨[], 301⟩) ∧
    clone sharedRefRegistry diffPatchHeap (some 0) false 40 =
      .ok (some 2, diffPatchClonedHeap) ∧
    binaryApplyDiff sharedRefRegistry 40 (some 2)
      (some diffPatchDiffTree) ⟨[], [], diffPatchClonedHeap⟩ =
      .ok ⟨[⟨.kPlain, false, 21, some 7, 0, 0, [3, 4], 2, none⟩,
            ⟨.kObjectStart, false, 0, none, 0, 0, [], 0, some 2⟩,
            ⟨.kObjectEnd, false, 0, none, 0, 0, [], 0, some 2⟩],
           [], diffPatchClonedHeap⟩ ∧
    applyDiffTop sharedRefRegistry 40 diffPatchClonedHeap (some 2)
      (some diffPatchDiffTree) =
      .error "null object dereferenced in IDiff::applyDiff" :=
  ⟨by rfl, by rfl, by rfl, by rfl, by rfl, by rfl⟩

lemma binaryApplyDiff_succ_some_some (reg : TypeRegistry) (fuel : Nat)
    (addr : Nat) (d : SerializedInstance) (st : ApplyDiffState) :
    binaryApplyDiff reg (fuel + 1) (some addr) (some d) st =
      (match st.heap.get addr with
      | none => .error "dangling object pointer"
      | some od =>
        if od.typeId ≠ SerializedInstance.getRootTypeId d then
          .ok st
        else
          match d with
          | .obj _ dsubs => do
            let st ← applyDiffSubObjects reg fuel addr dsubs st
            let st := st.push
              ⟨.kObjectStart, false, 0, none, 0, 0, [], 0, some addr⟩
            .ok (st.push
              ⟨.kObjectEnd, false, 0, none, 0, 0, [], 0, some addr⟩)
          | _ => .error "BinaryDiff::applyDiff diff is not an object") := by
  with_unfolding_all rfl

/-- C10: `BinaryDiff::applyDiff` is a silent no-op — no commands
appended, no object-map or heap change, no error — whenever the target
is null, the diff is null, or the target's type id differs from the
diff's root type id; and the diff's root type id is its first
sub-object's type id, or 0 when it has no sub-objects. -/
theorem binaryApplyDiff_guard_noop (reg : TypeRegistry) (fuel : Nat)
    (object : Option Nat) (diff : Option SerializedInstance)
    (st : ApplyDiffState)
    (h : object = none ∨ diff = none ∨
      (∃ addr od d, object = some addr ∧ diff = some d ∧
        st.heap.get addr = some od ∧
        od.typeId ≠ SerializedInstance.getRootTypeId d)) :
    binaryApplyDiff reg (fuel + 1) object diff st = .ok st ∧
    (∀ nid, SerializedInstance.getRootTypeId (.obj nid []) = 0) ∧
    (∀ nid so tl,
      SerializedInstance.getRootTypeId (.obj nid (so :: tl)) =
        so.typeId) := by
  refine ⟨?_, fun nid => rfl, fun nid so tl => rfl⟩
  rcases h with rfl | h
  · with_unfolding_all rfl
  rcases h with rfl | ⟨addr, od, d, rfl, rfl, hget, hne⟩
  · cases object <;> with_unfolding_all rfl
  · rw [binaryApplyDiff_succ_some_some, hget]
    simp only [if_pos hne]

/-- Witness for C10: a live object of type 21 against a diff whose
root type id is 20 triggers the mismatch arm of the guard; the 0 /
first-sub-object characterisations of the root type id evaluate on
concrete trees. -/
theorem binaryApplyDiff_guard_noop_witness :
    binaryApplyDiff sharedRefRegistry 8 (some 3)
      (some (.obj 0 [.mk 20 [(1, none)]]))
      ⟨[], [], ⟨[(3, ObjectData.mk 21 [])], 4⟩⟩ =
      .ok ⟨[], [], ⟨[(3, ObjectData.mk 21 [])], 4⟩⟩ ∧
    SerializedInstance.getRootTypeId (.obj 0 []) = 0 ∧
    SerializedInstance.getRootTypeId (.obj 0 [.mk 20 [(1, none)]]) =
      20 :=
  ⟨(binaryApplyDiff_guard_noop sharedRefRegistry 7 (some 3)
      (some (.obj 0 [.mk 20 [(1, none)]]))
      ⟨[], [], ⟨[(3, ObjectData.mk 21 [])], 4⟩⟩
      (Or.inr (Or.inr ⟨3, ObjectData.mk 21 [],
        .obj 0 [.mk 20 [(1, none)]], rfl, rfl, by rfl,
        by decide⟩))).1,
    rfl, rfl⟩
